import Mathlib

/-!
Verification of the core of the `hype` library: the function-introspection
to schema pipeline (`hype/function.py`), the tool registry
(`hype/tools/__init__.py`) and the three provider adapters
(`hype/tools/anthropic.py`, `hype/tools/openai.py`, `hype/tools/ollama.py`),
shallowly embedded in Lean.

Python runtime values exchanged with tools are modelled by `Val`; Python
exceptions by `PyExc`; the one-shot `concurrent.futures.Future` by
`FutureState` with explicit state passing; pydantic validation of the simple
scalar annotations used here by `validateValue` (modelling pydantic's lax
mode for the types that occur in this development).
-/

set_option autoImplicit false

deriving instance DecidableEq for Except

namespace Hype

/-- Python runtime values that flow through tool calls in this development:
`None`, booleans, integers and strings. -/
inductive Val where
  | none
  | bool (b : Bool)
  | int (n : Int)
  | str (s : String)
  deriving Repr, DecidableEq

/-- The type annotations occurring on the callables modelled here:
`int`, `bool`, `str`, `None`, untyped, and pydantic `BaseModel` subclasses
(identified by class name). -/
inductive PyTy where
  | int
  | bool
  | str
  | noneTy
  | anyTy
  | model (name : String)
  deriving Repr, DecidableEq

/-- Python exceptions relevant to this code: pydantic `ValidationError`
(carrying the offending field names), `ValueError`, the
`InvalidStateError` raised by `Future.set_result`/`set_exception` on a
resolved future, `AttributeError`, and exceptions raised by the body of a
wrapped callable (`userError`). -/
inductive PyExc where
  | validationError (fields : List String)
  | valueError (msg : String)
  | invalidStateError
  | attributeError (msg : String)
  | userError (msg : String)
  deriving Repr, DecidableEq

/-- Python `str()` of a `Val`, as used by the adapters to stringify results. -/
def pyStr : Val → String
  | .none => "None"
  | .bool b => if b then "True" else "False"
  | .int n => toString n
  | .str s => s

/-- The numeric value of a decimal digit character. -/
def digitVal (c : Char) : Option Nat :=
  if 48 ≤ c.toNat ∧ c.toNat ≤ 57 then some (c.toNat - 48) else Option.none

/-- Accumulating decimal parse of a digit list. -/
def digitsToNatAux (acc : Nat) : List Char → Option Nat
  | [] => some acc
  | c :: cs =>
    match digitVal c with
    | some d => digitsToNatAux (acc * 10 + d) cs
    | Option.none => Option.none

/-- Parse of a nonempty all-digit character list. -/
def digitsToNat : List Char → Option Nat
  | [] => Option.none
  | cs => digitsToNatAux 0 cs

/-- The integer a plain (optionally `-`-signed) decimal string denotes,
modelling the string-to-`int` coercion pydantic applies in lax mode;
any other string is rejected. -/
def strToInt? (s : String) : Option Int :=
  match s.data with
  | '-' :: rest => (digitsToNat rest).map (fun n => -(n : Int))
  | ds => (digitsToNat ds).map (fun n => (n : Int))

/-- pydantic (lax-mode) validation of a value against a scalar annotation.
Models the coercions pydantic v2 performs for the annotations in this
development: numeric strings coerce to `int`, `"true"`-like strings and
0/1 coerce to `bool`; `bool` is not accepted for `int` (pydantic v2
rejects it); `BaseModel`-typed values are outside the `Val` universe and
never validate here. Returns the validated (possibly coerced) value. -/
def validateValue : PyTy → Val → Option Val
  | .int, .int n => some (.int n)
  | .int, .str s => (strToInt? s).map Val.int
  | .bool, .bool b => some (.bool b)
  | .bool, .int n =>
      if n = 0 then some (.bool false)
      else if n = 1 then some (.bool true) else Option.none
  | .bool, .str s =>
      if s = "true" ∨ s = "True" then some (.bool true)
      else if s = "false" ∨ s = "False" then some (.bool false) else Option.none
  | .str, .str s => some (.str s)
  | .noneTy, .none => some .none
  | .anyTy, v => some v
  | _, _ => Option.none

/-- pydantic `FieldInfo`: the object produced by `Field(...)` or supplied by
the developer as a parameter default. `default = none` models
`PydanticUndefined` (a required field). `json_schema_extra` is the
extra-keys mapping merged into the field's JSON schema. -/
structure FieldInfo where
  default : Option Val
  description : Option String
  json_schema_extra : Option (List (String × Val))
  deriving Repr, DecidableEq

/-- The default of an `inspect.Parameter`: absent (`Parameter.empty`),
a plain value, or a `FieldInfo` object. -/
inductive ParamDefault where
  | empty
  | value (v : Val)
  | field (fi : FieldInfo)
  deriving Repr, DecidableEq

/-- An `inspect.Parameter` of the wrapped callable, with its annotation. -/
structure Parameter where
  name : String
  annot : PyTy
  default : ParamDefault
  deriving Repr, DecidableEq

/-- A per-parameter entry of a parsed docstring (`docstring_parser`). -/
structure DocParam where
  arg_name : String
  description : Option String
  deriving Repr, DecidableEq

/-- A parsed docstring: overall description, parameter descriptions, and
the `:return:` description when present. -/
structure Docstring where
  description : Option String
  params : List DocParam
  returns : Option String
  deriving Repr, DecidableEq

/-- Python truthiness test `not default.description`: true for `None` and
for the empty string. -/
def descFalsy : Option String → Bool
  | Option.none => true
  | some s => s = ""

/-- One derived input field of the synthesized `Input` model:
the parameter's name, its annotation, and the (possibly mutated)
`FieldInfo` carrying default, description and `json_schema_extra`. -/
structure DerivedField where
  name : String
  annot : PyTy
  info : FieldInfo
  deriving Repr, DecidableEq

/-- A derived field is required iff its `FieldInfo` carries no default
(pydantic `create_model` semantics). -/
def DerivedField.required (f : DerivedField) : Bool :=
  f.info.default.isNone

/-- The body of the per-parameter loop of `input_and_output_types`
(`hype/function.py`): build the base `FieldInfo` (`Field(...)` when the
parameter has no default, `Field(default)` for a plain default, the
developer's own `FieldInfo` otherwise), then unconditionally overwrite
`json_schema_extra` with the order marker, then backfill the description
from the docstring when the field's own description is falsy.

Because the `FieldInfo` branch reuses (and mutates) the very object stored
as the parameter's default, the function also returns the post-state of
the parameter, reflecting that in-place mutation. -/
def deriveField (doc : List DocParam) (order : Nat) (p : Parameter) :
    DerivedField × Parameter :=
  let base : FieldInfo :=
    match p.default with
    | .empty => ⟨Option.none, Option.none, Option.none⟩
    | .value v => ⟨some v, Option.none, Option.none⟩
    | .field fi => fi
  let withOrder : FieldInfo :=
    { base with json_schema_extra := some [("x-order", Val.int order)] }
  let info : FieldInfo :=
    if descFalsy withOrder.description then
      match doc.find? (fun d => d.arg_name = p.name) with
      | some d => { withOrder with description := d.description }
      | Option.none => withOrder
    else withOrder
  let post : Parameter :=
    match p.default with
    | .field _ => { p with default := .field info }
    | _ => p
  (⟨p.name, p.annot, info⟩, post)

/-- The per-parameter loop of `input_and_output_types`, threading the
running order index and accumulating both the derived fields and the
post-mutation parameters. -/
def deriveFieldsFrom (doc : List DocParam) (order : Nat) :
    List Parameter → List DerivedField × List Parameter
  | [] => ([], [])
  | p :: rest =>
    let fp := deriveField doc order p
    let tail := deriveFieldsFrom doc (order + 1) rest
    (fp.1 :: tail.1, fp.2 :: tail.2)

/-- Derivation of the `Input` model's fields from the callable's signature
and docstring, starting at order index 0. -/
def deriveInputFields (doc : List DocParam) (params : List Parameter) :
    List DerivedField × List Parameter :=
  deriveFieldsFrom doc 0 params

/-- A metadata entry of an `Annotated[...]` return annotation: either a
pydantic `FieldInfo` or any other object. -/
inductive AnnMeta where
  | fieldMeta (fi : FieldInfo)
  | other (s : String)
  deriving Repr, DecidableEq

/-- The callable's return annotation as seen by `inspect.signature`:
absent, a plain type, or `Annotated[base, metas...]`. -/
inductive RetAnnot where
  | missing
  | plain (t : PyTy)
  | annotated (base : PyTy) (metas : List AnnMeta)
  deriving Repr, DecidableEq

/-- `get_type_hints(func)` strips `Annotated` wrappers, so the `return`
entry it yields is the base type. -/
def strippedReturnType : RetAnnot → Option PyTy
  | .missing => Option.none
  | .plain t => some t
  | .annotated base _ => some base

/-- `isinstance(t, type) and issubclass(t, BaseModel)` over `PyTy`. -/
def isModelType : PyTy → Bool
  | .model _ => true
  | _ => false

/-- The loop over `Annotated` metadata in `input_and_output_types`: the
description of the first `FieldInfo` entry (which may itself be `None`),
or `None` when no entry is a `FieldInfo`. -/
def firstFieldMetaDescription : List AnnMeta → Option String
  | [] => Option.none
  | .fieldMeta fi :: _ => fi.description
  | .other _ :: rest => firstFieldMetaDescription rest

/-- The derived `Output` type: the callable's own `BaseModel` subclass
verbatim, or the synthesized single-field `RootModel` wrapper with the
root type (`none` for an unannotated callable) and resolved description. -/
inductive OutputSpec where
  | verbatim (name : String)
  | wrapped (root : Option PyTy) (description : Option String)
  deriving Repr, DecidableEq

/-- The output half of `input_and_output_types` (`hype/function.py`):
if the (Annotated-stripped) return type is a `BaseModel` subclass it is
used verbatim; otherwise a `root` wrapper is synthesized whose description
comes from the first `FieldInfo` metadata entry when the signature's
return annotation is `Annotated`, and from the docstring's return
description otherwise. -/
def deriveOutput (ret : RetAnnot) (doc : Docstring) : OutputSpec :=
  match strippedReturnType ret with
  | some (PyTy.model n) => .verbatim n
  | outputType =>
    match ret with
    | .annotated base metas => .wrapped (some base) (firstFieldMetaDescription metas)
    | _ => .wrapped outputType doc.returns

/-- What a registered tool executes: an ordinary wrapped callable (a pure
map from validated keyword arguments to a result or a raised exception),
or the synthetic `capture` closure of `create_capture_function`, whose
body resolves the registry's shared future. -/
inductive ToolKind where
  | user (impl : List (String × Val) → Except PyExc Val)
  | capture

/-- The `Function` descriptor (`hype/function.py`): the wrapped callable's
name, docstring description, derived input fields, the (Annotated-stripped)
return annotation used by `validate_call(validate_return=True)`
(`none` = unannotated, no return validation), and the callable itself. -/
structure Function where
  name : String
  description : Option String
  inputFields : List DerivedField
  returnType : Option PyTy
  kind : ToolKind

/-- Checking one derived field against the supplied keyword arguments:
a supplied value is validated against the annotation; a missing value
falls back to the field's default; otherwise the field name is reported
as the offending field. -/
def checkField (kwargs : List (String × Val)) (f : DerivedField) :
    Except String (String × Val) :=
  match kwargs.lookup f.name with
  | some v =>
    match validateValue f.annot v with
    | some v2 => .ok (f.name, v2)
    | Option.none => .error f.name
  | Option.none =>
    match f.info.default with
    | some d => .ok (f.name, d)
    | Option.none => .error f.name

/-- pydantic `validate_call` argument validation: every field is checked
against the keyword arguments, unexpected keyword arguments are rejected,
and all offending field names are collected into one `ValidationError`. -/
def validateKwargs (fields : List DerivedField) (kwargs : List (String × Val)) :
    Except PyExc (List (String × Val)) :=
  let results := fields.map (checkField kwargs)
  let errs := results.filterMap fun r =>
    match r with | .error n => some n | .ok _ => Option.none
  let extras := (kwargs.filter fun kv => ¬ fields.any (·.name = kv.1)).map (·.1)
  match errs ++ extras with
  | [] => .ok (results.filterMap fun r =>
      match r with | .ok p => some p | .error _ => Option.none)
  | es => .error (.validationError es)

/-- `validate_call(validate_return=True)` output validation against the
declared return annotation; an unannotated callable's return is accepted
as-is. A failing return value is reported under the `return` field. -/
def validateReturn (rt : Option PyTy) (v : Val) : Except PyExc Val :=
  match rt with
  | Option.none => .ok v
  | some t =>
    match validateValue t v with
    | some v2 => .ok v2
    | Option.none => .error (.validationError ["return"])

/-- The state of the shared `concurrent.futures.Future`. -/
inductive FutureState where
  | pending
  | resolvedValue (v : Val)
  | resolvedError (e : PyExc)
  deriving Repr, DecidableEq

/-- `Future.set_result`: succeeds only on a pending future; on a resolved
future it raises `InvalidStateError` and leaves the state unchanged
(CPython's check-and-set under the future's lock). -/
def setResult (s : FutureState) (v : Val) : Except PyExc FutureState :=
  match s with
  | .pending => .ok (.resolvedValue v)
  | _ => .error .invalidStateError

/-- `Future.set_exception`: same check-and-set discipline as `setResult`. -/
def setException (s : FutureState) (e : PyExc) : Except PyExc FutureState :=
  match s with
  | .pending => .ok (.resolvedError e)
  | _ => .error .invalidStateError

/-- `Function.__call__` on a registered tool, threading the registry's
shared future (present iff the registry captures a result). Arguments are
validated; a user callable then runs and its return value is validated;
the `capture` closure instead calls `future.set_result(value)` (raising
`AttributeError` if no future exists, `InvalidStateError` if it is already
resolved) and returns `None`. All error paths leave the future unchanged. -/
def callFunction (f : Function) (kwargs : List (String × Val))
    (fut : Option FutureState) : Except PyExc Val × Option FutureState :=
  match validateKwargs f.inputFields kwargs with
  | .error e => (.error e, fut)
  | .ok validated =>
    match f.kind with
    | .user impl =>
      match impl validated with
      | .error e => (.error e, fut)
      | .ok v => (validateReturn f.returnType v, fut)
    | .capture =>
      let v := (validated.lookup "value").getD .none
      match fut with
      | Option.none => (.error (.attributeError "future"), fut)
      | some s =>
        match setResult s v with
        | .ok s2 => (validateReturn f.returnType .none, some s2)
        | .error e => (.error e, fut)

/-- `Function.__call__` outside any registry (no shared future in scope),
as exercised directly through a wrapped callable. -/
def Function.call (f : Function) (kwargs : List (String × Val)) :
    Except PyExc Val :=
  (callFunction f kwargs Option.none).1

/-- The docstring of the synthetic `capture` function, as parsed by
`docstring_parser`. -/
def captureDescription : String :=
  "Returns structured output back to the user. " ++
  "Use this to end your response, " ++
  "but don't mention the existence of this function."

/-- `create_capture_function` (`hype/tools/__init__.py`): the wrapped
`capture(value: dtype) -> None` function, its input field derived through
the same pipeline as any other callable. The shared future it closes over
starts pending and is threaded through dispatch explicitly. -/
def captureFunction (dtype : PyTy) : Function :=
  { name := "capture"
    description := some captureDescription
    inputFields :=
      (deriveInputFields [⟨"value", some "The value to return to the user."⟩]
        [⟨"value", dtype, .empty⟩]).1
    returnType := some .noneTy
    kind := .capture }

/-- The state of a `Tools` registry: the name-keyed tools in insertion
order, and the shared future (present iff a result type was supplied). -/
structure ToolsState where
  tools : List Function
  future : Option FutureState

/-- Lookup in the registry's `_tools` dict (`self._tools.get(name)`). -/
def ToolsState.lookup (ts : ToolsState) (name : String) : Option Function :=
  ts.tools.find? (·.name = name)

/-- The per-function loop of `Tools.__init__`: warn (non-fatally) on a
missing/empty description, reject the reserved name `__return__`, reject a
name already registered, and otherwise append to the insertion-ordered
dict. Returns the registered tools and the accumulated warnings. -/
def toolsInitLoop (acc : List Function) (warns : List String) :
    List Function → Except PyExc (List Function × List String)
  | [] => .ok (acc, warns)
  | f :: rest =>
    let warns2 :=
      if descFalsy f.description then
        warns ++ ["Function " ++ f.name ++ " has no description"]
      else warns
    if f.name = "__return__" then
      .error (.valueError "Function name __return__ is reserved")
    else if acc.any (·.name = f.name) then
      .error (.valueError ("Duplicate function name: " ++ f.name))
    else
      toolsInitLoop (acc ++ [f]) warns2 rest

/-- `Tools.__init__`: register the supplied functions, then, when a result
type is given, create the capture function, rename it to `__return__`,
store it under that key and expose the (pending) shared future. -/
def toolsInit (functions : List Function) (resultType : Option PyTy) :
    Except PyExc (ToolsState × List String) :=
  match toolsInitLoop [] [] functions with
  | .error e => .error e
  | .ok (tools, warns) =>
    match resultType with
    | Option.none => .ok (⟨tools, Option.none⟩, warns)
    | some t =>
      let capture := { captureFunction t with name := "__return__" }
      .ok (⟨tools ++ [capture], some .pending⟩, warns)

/-- JSON values, as produced by pydantic's `model_json_schema` and shaped
by the adapters before transmission. -/
inductive JVal where
  | str (s : String)
  | num (n : Int)
  | bool (b : Bool)
  | null
  | arr (xs : List JVal)
  | obj (kvs : List (String × JVal))

/-- Embedding of a tool-call value into JSON. -/
def valToJ : Val → JVal
  | .none => .null
  | .bool b => .bool b
  | .int n => .num n
  | .str s => .str s

/-- Lookup of a key in a JSON object's entry list. -/
def objLookup (kvs : List (String × JVal)) (k : String) : Option JVal :=
  kvs.lookup k

/-- Python `d[k] = v` on an insertion-ordered dict: replace in place when
the key exists, append otherwise. -/
def objAssign (kvs : List (String × JVal)) (k : String) (v : JVal) :
    List (String × JVal) :=
  if kvs.any (·.1 = k) then
    kvs.map fun kv => if kv.1 = k then (k, v) else kv
  else kvs ++ [(k, v)]

/-- pydantic's title for a field: underscores become spaces and each word
is capitalized. -/
def titleize (s : String) : String :=
  String.intercalate " " (((s.replace "_" " ").splitOn " ").map String.capitalize)

/-- The `type` entry pydantic emits for a scalar annotation (none for an
untyped field). -/
def typeSchema : PyTy → List (String × JVal)
  | .int => [("type", .str "integer")]
  | .bool => [("type", .str "boolean")]
  | .str => [("type", .str "string")]
  | .noneTy => [("type", .str "null")]
  | .anyTy => []
  | .model n => [("$ref", .str ("#/$defs/" ++ n))]

/-- The JSON schema pydantic emits for one derived field: optional
`default` and `description`, the `title`, the `type`, and the entries of
`json_schema_extra` (here always the `x-order` marker) merged at the end.
The relative order of keys is immaterial to every property proved below. -/
def fieldSchema (f : DerivedField) : JVal :=
  .obj
    ((match f.info.default with
      | some d => [("default", valToJ d)]
      | Option.none => []) ++
     (match f.info.description with
      | some d => [("description", .str d)]
      | Option.none => []) ++
     [("title", .str (titleize f.name))] ++
     typeSchema f.annot ++
     (f.info.json_schema_extra.getD []).map (fun kv => (kv.1, valToJ kv.2)))

/-- The entries of `Input.model_json_schema(mode="validation")`: the
per-field property schemas, the required-field list (present only when
nonempty), the model title and `"type": "object"`. -/
def modelJsonSchemaEntries (title : String) (fields : List DerivedField) :
    List (String × JVal) :=
  let required := (fields.filter (·.required)).map (.str ·.name)
  [("properties", .obj (fields.map fun f => (f.name, fieldSchema f)))] ++
    (if required.isEmpty then [] else [("required", .arr required)]) ++
    [("title", .str title), ("type", .str "object")]

/-- `Input.model_json_schema(mode="validation")` as a JSON object. -/
def modelJsonSchema (title : String) (fields : List DerivedField) : JVal :=
  .obj (modelJsonSchemaEntries title fields)

mutual
/-- `_process_parameters` (`hype/tools/openai.py`): recursively drop the
`title` and `x-order` keys from every object at every nesting level. -/
def processParameters : JVal → JVal
  | .obj kvs => .obj (processObjList kvs)
  | .arr xs => .arr (processArrList xs)
  | v => v

/-- The dict comprehension of `_process_parameters`: filter the banned
keys, recurse into the kept values. -/
def processObjList : List (String × JVal) → List (String × JVal)
  | [] => []
  | (k, v) :: rest =>
    if k = "title" ∨ k = "x-order" then processObjList rest
    else (k, processParameters v) :: processObjList rest

/-- The list comprehension of `_process_parameters`. -/
def processArrList : List JVal → List JVal
  | [] => []
  | v :: rest => processParameters v :: processArrList rest
end

/-- `AnthropicTools.__iter__`: one `ToolParam` per registered tool, with
name, description (empty string when absent) and the unmodified input
schema. -/
def anthropicToolList (ts : ToolsState) : List JVal :=
  ts.tools.map fun f =>
    .obj [("name", .str f.name),
          ("description", .str (f.description.getD "")),
          ("input_schema", modelJsonSchema "Input" f.inputFields)]

/-- The `parameters` object `OpenAITools.__iter__` sends: the input schema
with `additionalProperties` forced to `False`, then stripped of `title`
and `x-order` at every nesting level. -/
def openaiParameters (fields : List DerivedField) : JVal :=
  processParameters
    (match modelJsonSchema "Input" fields with
     | .obj kvs => .obj (objAssign kvs "additionalProperties" (.bool false))
     | j => j)

/-- `OpenAITools.__iter__`: one `ChatCompletionToolParam` per registered
tool; note the function object carries `name`, `strict` and `parameters`
but no description. -/
def openaiToolList (ts : ToolsState) : List JVal :=
  ts.tools.map fun f =>
    .obj [("type", .str "function"),
          ("function", .obj
            [("name", .str f.name),
             ("strict", .bool true),
             ("parameters", openaiParameters f.inputFields)])]

/-- `OllamaTools.__iter__`: one `Tool` per registered tool, carrying the
unmodified input schema as `parameters`. -/
def ollamaToolList (ts : ToolsState) : List JVal :=
  ts.tools.map fun f =>
    .obj [("type", .str "function"),
          ("function", .obj
            [("name", .str f.name),
             ("description", .str (f.description.getD "")),
             ("parameters", modelJsonSchema "Input" f.inputFields)])]

/-- A character allowed by `ANTHROPIC_TOOL_NAME_RE`'s class
`[a-zA-Z0-9_-]`. -/
def anthropicNameChar (c : Char) : Bool :=
  (Char.ofNat 97 ≤ c ∧ c ≤ Char.ofNat 122) ∨
  (Char.ofNat 65 ≤ c ∧ c ≤ Char.ofNat 90) ∨
  (Char.ofNat 48 ≤ c ∧ c ≤ Char.ofNat 57) ∨
  c = Char.ofNat 95 ∨ c = Char.ofNat 45

/-- `re.match(r"^[a-zA-Z0-9_-]{1,64}$", s)`: under Python semantics `$`
also matches just before one final newline, so such a newline is dropped
before the character-class and length check. -/
def anthropicNameOk (s : String) : Bool :=
  let cs := s.data
  let core := if cs.getLast? = some (Char.ofNat 10) then cs.dropLast else cs
  1 ≤ core.length ∧ core.length ≤ 64 ∧ core.all anthropicNameChar

/-- `AnthropicTools.__init__`: every supplied function's name is checked
against the tool-name pattern before the base registry construction runs. -/
def anthropicInit (functions : List Function) (resultType : Option PyTy) :
    Except PyExc (ToolsState × List String) :=
  match functions.find? (fun f => ! anthropicNameOk f.name) with
  | some f =>
    .error (.valueError ("Invalid function name: " ++ f.name ++
      ", must match ^[a-zA-Z0-9_-]\x7b1,64\x7d$"))
  | Option.none => toolsInit functions resultType

/-- An Anthropic `ToolUseBlock`: call id, tool name and argument bag. -/
structure ToolUseBlock where
  id : String
  name : String
  input : List (String × Val)
  deriving Repr, DecidableEq

/-- An Anthropic `ToolResultBlockParam`. -/
structure ToolResultBlockParam where
  tool_use_id : String
  content : String
  is_error : Bool
  deriving Repr, DecidableEq

/-- `AnthropicTools.__call__`: the try block looks the tool up (raising
`ValueError` on a miss) and invokes it, rendering a non-error result
block; any exception is routed to `self.future.set_exception` (which
itself raises `AttributeError` when the registry captures no result, and
`InvalidStateError` when the future is already resolved — both escaping
the dispatch) and an error result block is rendered. -/
def anthropicCall (ts : ToolsState) (tu : ToolUseBlock) :
    Except PyExc ToolResultBlockParam × ToolsState :=
  let tryResult : Except PyExc ToolResultBlockParam × Option FutureState :=
    match ts.lookup tu.name with
    | Option.none =>
      (.error (.valueError ("Function " ++ tu.name ++ " not found")), ts.future)
    | some f =>
      match callFunction f tu.input ts.future with
      | (.ok v, fut2) => (.ok ⟨tu.id, pyStr v, false⟩, fut2)
      | (.error e, fut2) => (.error e, fut2)
  match tryResult with
  | (.ok r, fut2) => (.ok r, { ts with future := fut2 })
  | (.error e, fut2) =>
    match fut2 with
    | Option.none => (.error (.attributeError "future"), { ts with future := fut2 })
    | some s =>
      match setException s e with
      | .ok s2 =>
        (.ok ⟨tu.id, "An error occurred while calling the tool", true⟩,
         { ts with future := some s2 })
      | .error e2 => (.error e2, { ts with future := some s })

/-- An OpenAI `RequiredActionFunctionToolCall`, its JSON argument string
already parsed into an argument bag. -/
structure OpenAIToolCall where
  id : String
  name : String
  arguments : List (String × Val)
  deriving Repr, DecidableEq

/-- An OpenAI `ToolOutput`. -/
structure ToolOutput where
  tool_call_id : String
  output : String
  deriving Repr, DecidableEq

/-- The loop of `OpenAITools.__call__`: each call is looked up (raising
`ValueError` on a miss, which aborts the whole batch) and invoked (any
invocation exception also aborts the batch); successful results are
stringified into `ToolOutput`s. No exception is caught and the shared
future is touched only by the capture tool itself. -/
def openaiCallLoop (ts : ToolsState) (fut : Option FutureState) :
    List OpenAIToolCall → Except PyExc (List ToolOutput) × Option FutureState
  | [] => (.ok [], fut)
  | tc :: rest =>
    match ts.lookup tc.name with
    | Option.none =>
      (.error (.valueError ("Function " ++ tc.name ++ " not found")), fut)
    | some f =>
      match callFunction f tc.arguments fut with
      | (.error e, fut2) => (.error e, fut2)
      | (.ok v, fut2) =>
        match openaiCallLoop ts fut2 rest with
        | (.ok outs, fut3) => (.ok (⟨tc.id, pyStr v⟩ :: outs), fut3)
        | (.error e, fut3) => (.error e, fut3)

/-- `OpenAITools.__call__` on a batch of tool calls. -/
def openaiCall (ts : ToolsState) (tcs : List OpenAIToolCall) :
    Except PyExc (List ToolOutput) × ToolsState :=
  match openaiCallLoop ts ts.future tcs with
  | (r, fut2) => (r, { ts with future := fut2 })

/-- An Ollama `ToolCall` (`tool_call["function"]`), whose `arguments`
entry defaults to the empty bag when absent. -/
structure OllamaToolCall where
  name : String
  arguments : List (String × Val)
  deriving Repr, DecidableEq

/-- The loop of `OllamaTools.__call__`: like the OpenAI loop but the raw
results are collected, not stringified. -/
def ollamaCallLoop (ts : ToolsState) (fut : Option FutureState) :
    List OllamaToolCall → Except PyExc (List Val) × Option FutureState
  | [] => (.ok [], fut)
  | tc :: rest =>
    match ts.lookup tc.name with
    | Option.none =>
      (.error (.valueError ("Function " ++ tc.name ++ " not found")), fut)
    | some f =>
      match callFunction f tc.arguments fut with
      | (.error e, fut2) => (.error e, fut2)
      | (.ok v, fut2) =>
        match ollamaCallLoop ts fut2 rest with
        | (.ok outs, fut3) => (.ok (v :: outs), fut3)
        | (.error e, fut3) => (.error e, fut3)

/-- `OllamaTools.__call__` on a batch of tool calls. -/
def ollamaCall (ts : ToolsState) (tcs : List OllamaToolCall) :
    Except PyExc (List Val) × ToolsState :=
  match ollamaCallLoop ts ts.future tcs with
  | (r, fut2) => (r, { ts with future := fut2 })

/-- The second parameter of `add(x: int, y: int) -> int`. -/
def yParam : Parameter := ⟨"y", .int, .empty⟩

/-- The parameters of `add(x: int, y: int) -> int`. -/
def addParams : List Parameter :=
  [⟨"x", .int, .empty⟩, yParam]

/-- The descriptor produced by wrapping `add(x: int, y: int) -> int`,
whose body returns `x + y`. -/
def addFunction : Function :=
  { name := "add"
    description := some "Add two numbers."
    inputFields := (deriveInputFields [] addParams).1
    returnType := some .int
    kind := .user fun kwargs =>
      match kwargs.lookup "x", kwargs.lookup "y" with
      | some (.int a), some (.int b) => .ok (.int (a + b))
      | _, _ => .error (.userError "unreachable") }

/-- A wrapped callable with `add`'s signature whose body raises. -/
def boomFunction : Function :=
  { addFunction with
    name := "boom"
    kind := .user fun _ => .error (.userError "boom") }

/-- A wrapped `inc(x: int) -> int` returning `x + 1`, used as the ordinary
tool of the demonstration registries. -/
def incFunction : Function :=
  { name := "inc"
    description := some "Increment a number."
    inputFields := (deriveInputFields [] [⟨"x", .int, .empty⟩]).1
    returnType := some .int
    kind := .user fun kwargs =>
      match kwargs.lookup "x" with
      | some (.int a) => .ok (.int (a + 1))
      | _ => .error (.userError "unreachable") }

/-- The result-capturing demonstration registry: `inc` plus the synthetic
capture tool for `result_type=bool`. -/
def demoTs : ToolsState :=
  match toolsInit [incFunction, boomFunction] (some .bool) with
  | .ok (ts, _) => ts
  | .error _ => ⟨[], Option.none⟩

/-- The demonstration registry after its future has been resolved. -/
def demoResolvedTs : ToolsState :=
  { demoTs with future := some (.resolvedValue (.bool true)) }

/-- A wrapped callable without a description (its docstring is empty). -/
def noDescFunction : Function :=
  { incFunction with name := "nodesc", description := Option.none }

mutual
/-- No object at any nesting level of the JSON value carries a `title` or
`x-order` key. -/
def noBanned : JVal → Bool
  | .obj kvs => noBannedObj kvs
  | .arr xs => noBannedArr xs
  | _ => true

/-- `noBanned` over the entries of an object. -/
def noBannedObj : List (String × JVal) → Bool
  | [] => true
  | (k, v) :: rest =>
    (¬(k = "title" ∨ k = "x-order")) && noBanned v && noBannedObj rest

/-- `noBanned` over the elements of an array. -/
def noBannedArr : List JVal → Bool
  | [] => true
  | v :: rest => noBanned v && noBannedArr rest
end

/-- Key lookup inside an optional JSON object, used to state properties of
rendered tool-declaration entries. -/
def jObjLookup : Option JVal → String → Option JVal
  | some (.obj kvs), k => objLookup kvs k
  | _, _ => Option.none

/-- The description of the first `FieldInfo` entry of an `Annotated`
return annotation, when the annotation has that shape. -/
def explicitReturnMetaDescription : RetAnnot → Option String
  | .annotated _ metas => firstFieldMetaDescription metas
  | _ => Option.none

/-- Modelled from the spec's words, for comparison against `deriveOutput`:
the wrapper description "resolved with precedence: explicit metadata on an
annotated return type > documentation return-description > none". -/
def specReturnDescription (ret : RetAnnot) (doc : Docstring) : Option String :=
  (explicitReturnMetaDescription ret).orElse fun _ => doc.returns

/-- A developer-supplied field descriptor: no default value (the field
stays required), its own description, and its own `json_schema_extra`. -/
def cexFieldInfo : FieldInfo :=
  ⟨Option.none, some "supplied description", some [("foo", Val.str "bar")]⟩

/-- A parameter whose default is the rich field descriptor above, as in
`def f(x: int = Field(description=..., json_schema_extra=...))`. -/
def cexParam : Parameter :=
  ⟨"x", .int, .field cexFieldInfo⟩

/-- The warnings `Tools.__init__` emits for a list of functions: one
message per function whose description is absent or empty. -/
def warningsOf (fs : List Function) : List String :=
  fs.filterMap fun f =>
    if descFalsy f.description then
      some ("Function " ++ f.name ++ " has no description")
    else Option.none

/-! ## Theorems -/

/-- C1: For the descriptor wrapping `add(x: int, y: int) -> int`, invoking
with `x=1, y=2` returns `3`; invoking with `x="a", y=2` raises a
`ValidationError` referencing field `x`; and an exception raised by the
body of any wrapped callable propagates through invocation unchanged (the
resulting error is exactly the callable's own exception, never
reclassified as a `ValidationError`). -/
theorem c1_invoke_roundtrip :
    addFunction.call [("x", .int 1), ("y", .int 2)] = .ok (.int 3) ∧
    addFunction.call [("x", .str "a"), ("y", .int 2)]
      = .error (.validationError ["x"]) ∧
    ∀ (f : Function) (impl : List (String × Val) → Except PyExc Val)
      (kwargs validated : List (String × Val)) (e : PyExc),
      f.kind = ToolKind.user impl →
      validateKwargs f.inputFields kwargs = .ok validated →
      impl validated = .error e →
      f.call kwargs = .error e := by
  refine ⟨rfl, by decide, ?_⟩
  intro f impl kwargs validated e hk hv hi
  simp [Function.call, callFunction, hk, hv, hi]

/-- Witness for C1: the propagation clause applied to a concrete callable
whose body raises. -/
theorem c1_invoke_roundtrip_witness :
    boomFunction.call [("x", .int 1), ("y", .int 2)]
      = .error (.userError "boom") :=
  c1_invoke_roundtrip.2.2 boomFunction _ [("x", .int 1), ("y", .int 2)]
    [("x", .int 1), ("y", .int 2)] (.userError "boom") rfl rfl rfl

/-- `set_result` on an already-resolved future raises `InvalidStateError`. -/
theorem setResult_resolved (s : FutureState) (v : Val) (hs : s ≠ .pending) :
    setResult s v = .error .invalidStateError := by
  cases s <;> simp_all [setResult]

/-- `set_exception` on an already-resolved future raises
`InvalidStateError`. -/
theorem setException_resolved (s : FutureState) (e : PyExc)
    (hs : s ≠ .pending) : setException s e = .error .invalidStateError := by
  cases s <;> simp_all [setException]

/-- Invoking any tool with an already-resolved shared future leaves that
future untouched. -/
theorem callFunction_resolved_future (f : Function)
    (kwargs : List (String × Val)) (s : FutureState) (hs : s ≠ .pending) :
    (callFunction f kwargs (some s)).2 = some s := by
  cases hv : validateKwargs f.inputFields kwargs with
  | error e => simp [callFunction, hv]
  | ok validated =>
    cases hk : f.kind with
    | user impl =>
      cases hi : impl validated with
      | error e => simp [callFunction, hv, hk, hi]
      | ok v => simp [callFunction, hv, hk, hi]
    | capture =>
      cases s with
      | pending => exact absurd rfl hs
      | resolvedValue v => simp [callFunction, hv, hk, setResult]
      | resolvedError e => simp [callFunction, hv, hk, setResult]

/-- The OpenAI dispatch loop preserves a resolved future. -/
theorem openaiCallLoop_resolved_future (ts : ToolsState) (s : FutureState)
    (hs : s ≠ .pending) (tcs : List OpenAIToolCall) :
    (openaiCallLoop ts (some s) tcs).2 = some s := by
  induction tcs with
  | nil => rfl
  | cons tc rest ih =>
    simp only [openaiCallLoop]
    cases hl : ts.lookup tc.name with
    | none => simp [hl]
    | some f =>
      have hcf := callFunction_resolved_future f tc.arguments s hs
      cases hc : callFunction f tc.arguments (some s) with
      | mk r fut2 =>
        rw [hc] at hcf
        simp only at hcf
        subst hcf
        cases r with
        | error e => simp [hl, hc]
        | ok v =>
          cases hrec : openaiCallLoop ts (some s) rest with
          | mk rr fut3 =>
            rw [hrec] at ih
            simp only at ih
            subst ih
            cases rr <;> simp [hl, hc, hrec]

/-- The Ollama dispatch loop preserves a resolved future. -/
theorem ollamaCallLoop_resolved_future (ts : ToolsState) (s : FutureState)
    (hs : s ≠ .pending) (tcs : List OllamaToolCall) :
    (ollamaCallLoop ts (some s) tcs).2 = some s := by
  induction tcs with
  | nil => rfl
  | cons tc rest ih =>
    simp only [ollamaCallLoop]
    cases hl : ts.lookup tc.name with
    | none => simp [hl]
    | some f =>
      have hcf := callFunction_resolved_future f tc.arguments s hs
      cases hc : callFunction f tc.arguments (some s) with
      | mk r fut2 =>
        rw [hc] at hcf
        simp only at hcf
        subst hcf
        cases r with
        | error e => simp [hl, hc]
        | ok v =>
          cases hrec : ollamaCallLoop ts (some s) rest with
          | mk rr fut3 =>
            rw [hrec] at ih
            simp only at ih
            subst ih
            cases rr <;> simp [hl, hc, hrec]

/-- The Anthropic dispatch preserves a resolved future (the
`set_exception` attempt in its error handler raises `InvalidStateError`
instead of overwriting). -/
theorem anthropicCall_resolved_future (ts : ToolsState) (tu : ToolUseBlock)
    (s : FutureState) (hfut : ts.future = some s) (hs : s ≠ .pending) :
    (anthropicCall ts tu).2.future = some s := by
  unfold anthropicCall
  rw [hfut]
  cases hl : ts.lookup tu.name with
  | none => simp [setException_resolved s _ hs]
  | some f =>
    have hcf := callFunction_resolved_future f tu.input s hs
    cases hc : callFunction f tu.input (some s) with
    | mk r fut2 =>
      rw [hc] at hcf
      simp only at hcf
      subst hcf
      cases r with
      | ok v => simp [hl, hc]
      | error e => simp [hl, hc, setException_resolved s _ hs]

/-- C5: The shared future is written at most once. Once it is resolved
(with a value or a failure), `set_result` and `set_exception` only raise
`InvalidStateError` (the check-and-set guard), and no dispatch through any
of the three adapters changes the stored resolution: the first resolution
wins. -/
theorem c5_future_write_once (ts : ToolsState) (s : FutureState)
    (hfut : ts.future = some s) (hs : s ≠ FutureState.pending) :
    (∀ v, setResult s v = .error .invalidStateError) ∧
    (∀ e, setException s e = .error .invalidStateError) ∧
    (∀ tu, (anthropicCall ts tu).2.future = some s) ∧
    (∀ tcs, (openaiCall ts tcs).2.future = some s) ∧
    (∀ tcs, (ollamaCall ts tcs).2.future = some s) := by
  refine ⟨fun v => setResult_resolved s v hs,
          fun e => setException_resolved s e hs,
          fun tu => anthropicCall_resolved_future ts tu s hfut hs,
          fun tcs => ?_, fun tcs => ?_⟩
  · show ({ ts with future := (openaiCallLoop ts ts.future tcs).2 }).future = some s
    rw [hfut]
    exact openaiCallLoop_resolved_future ts s hs tcs
  · show ({ ts with future := (ollamaCallLoop ts ts.future tcs).2 }).future = some s
    rw [hfut]
    exact ollamaCallLoop_resolved_future ts s hs tcs

/-- Witness for C5: a registry whose future is already resolved with
`True` keeps exactly that resolution across a failing Anthropic dispatch,
a successful OpenAI dispatch, and an Ollama dispatch that calls the
capture tool a second time. -/
theorem c5_future_write_once_witness :
    (anthropicCall demoResolvedTs ⟨"3", "missing", []⟩).2.future
      = some (.resolvedValue (.bool true)) ∧
    (openaiCall demoResolvedTs [⟨"1", "inc", [("x", .int 1)]⟩]).2.future
      = some (.resolvedValue (.bool true)) ∧
    (ollamaCall demoResolvedTs [⟨"__return__", [("value", .bool false)]⟩]).2.future
      = some (.resolvedValue (.bool true)) := by
  have h := c5_future_write_once demoResolvedTs (.resolvedValue (.bool true))
    rfl (by decide)
  exact ⟨h.2.2.1 _, h.2.2.2.1 _, h.2.2.2.2 _⟩

/-- A failing tool invocation on a pending future leaves the future
pending, provided a capture tool carries the `None` return annotation
`create_capture_function` gives it (the only error the capture body can
hit after resolving the future would be return validation, which `None`
always passes). -/
theorem callFunction_pending_error_future (f : Function)
    (kwargs : List (String × Val)) (e : PyExc)
    (hcap : f.kind = ToolKind.capture → f.returnType = some .noneTy)
    (herr : (callFunction f kwargs (some .pending)).1 = .error e) :
    (callFunction f kwargs (some .pending)).2 = some .pending := by
  cases hv : validateKwargs f.inputFields kwargs with
  | error e2 => simp [callFunction, hv]
  | ok validated =>
    cases hk : f.kind with
    | user impl =>
      cases hi : impl validated with
      | error e2 => simp [callFunction, hv, hk, hi]
      | ok v => simp [callFunction, hv, hk, hi]
    | capture =>
      have hrt := hcap hk
      simp [callFunction, hv, hk, setResult, hrt, validateReturn,
        validateValue] at herr

/-- On a pending future, a failing Anthropic tool invocation resolves the
future with the failure and renders the error result block. -/
theorem anthropicCall_invoke_error (ts : ToolsState) (tu : ToolUseBlock)
    (f : Function) (e : PyExc) (hfut : ts.future = some .pending)
    (hl : ts.lookup tu.name = some f)
    (hcap : f.kind = ToolKind.capture → f.returnType = some .noneTy)
    (herr : (callFunction f tu.input ts.future).1 = .error e) :
    anthropicCall ts tu =
      (.ok ⟨tu.id, "An error occurred while calling the tool", true⟩,
       { ts with future := some (.resolvedError e) }) := by
  rw [hfut] at herr
  have hpend := callFunction_pending_error_future f tu.input e hcap herr
  cases hc : callFunction f tu.input (some .pending) with
  | mk r fut2 =>
    rw [hc] at herr hpend
    simp only at herr hpend
    subst herr
    subst hpend
    simp [anthropicCall, hl, hfut, hc, setException]

/-- A failing tool invocation leaves the shared future unchanged, whatever
its state, provided a capture tool carries the `None` return annotation
`create_capture_function` gives it (the only error the capture body could
hit after resolving a pending future would be return validation, which
`None` always passes). -/
theorem callFunction_error_preserves_future (f : Function)
    (kwargs : List (String × Val)) (fut : Option FutureState) (e : PyExc)
    (hcap : f.kind = ToolKind.capture → f.returnType = some .noneTy)
    (herr : (callFunction f kwargs fut).1 = .error e) :
    (callFunction f kwargs fut).2 = fut := by
  cases hv : validateKwargs f.inputFields kwargs with
  | error e2 => simp [callFunction, hv]
  | ok validated =>
    cases hk : f.kind with
    | user impl =>
      cases hi : impl validated with
      | error e2 => simp [callFunction, hv, hk, hi]
      | ok v => simp [callFunction, hv, hk, hi]
    | capture =>
      have hrt := hcap hk
      cases fut with
      | none => simp [callFunction, hv, hk]
      | some s =>
        cases s with
        | pending =>
          simp [callFunction, hv, hk, setResult, hrt, validateReturn,
            validateValue] at herr
        | resolvedValue v => simp [callFunction, hv, hk, setResult]
        | resolvedError e2 => simp [callFunction, hv, hk, setResult]

/-- The OpenAI dispatch loop raises `ValueError` when its first call
names an unregistered tool, touching nothing. -/
theorem openaiCallLoop_lookup_miss (ts : ToolsState)
    (fut : Option FutureState) (tc : OpenAIToolCall)
    (rest : List OpenAIToolCall) (hl : ts.lookup tc.name = Option.none) :
    openaiCallLoop ts fut (tc :: rest)
      = (.error (.valueError ("Function " ++ tc.name ++ " not found")), fut) := by
  simp [openaiCallLoop, hl]

/-- The OpenAI dispatch loop propagates a failing first invocation —
validation error or callable exception alike — verbatim, producing no
outputs and leaving the future unchanged. -/
theorem openaiCallLoop_invoke_error (ts : ToolsState)
    (fut : Option FutureState) (tc : OpenAIToolCall)
    (rest : List OpenAIToolCall) (f : Function) (e : PyExc)
    (hl : ts.lookup tc.name = some f)
    (hcap : f.kind = ToolKind.capture → f.returnType = some .noneTy)
    (herr : (callFunction f tc.arguments fut).1 = .error e) :
    openaiCallLoop ts fut (tc :: rest) = (.error e, fut) := by
  have hpres := callFunction_error_preserves_future f tc.arguments fut e hcap herr
  cases hc : callFunction f tc.arguments fut with
  | mk r fut2 =>
    rw [hc] at herr hpres
    simp only at herr hpres
    subst herr
    subst hpres
    simp [openaiCallLoop, hl, hc]

/-- The Ollama dispatch loop raises `ValueError` when its first call
names an unregistered tool, touching nothing. -/
theorem ollamaCallLoop_lookup_miss (ts : ToolsState)
    (fut : Option FutureState) (tc : OllamaToolCall)
    (rest : List OllamaToolCall) (hl : ts.lookup tc.name = Option.none) :
    ollamaCallLoop ts fut (tc :: rest)
      = (.error (.valueError ("Function " ++ tc.name ++ " not found")), fut) := by
  simp [ollamaCallLoop, hl]

/-- The Ollama dispatch loop propagates a failing first invocation
verbatim, producing no outputs and leaving the future unchanged. -/
theorem ollamaCallLoop_invoke_error (ts : ToolsState)
    (fut : Option FutureState) (tc : OllamaToolCall)
    (rest : List OllamaToolCall) (f : Function) (e : PyExc)
    (hl : ts.lookup tc.name = some f)
    (hcap : f.kind = ToolKind.capture → f.returnType = some .noneTy)
    (herr : (callFunction f tc.arguments fut).1 = .error e) :
    ollamaCallLoop ts fut (tc :: rest) = (.error e, fut) := by
  have hpres := callFunction_error_preserves_future f tc.arguments fut e hcap herr
  cases hc : callFunction f tc.arguments fut with
  | mk r fut2 =>
    rw [hc] at herr hpres
    simp only at herr hpres
    subst herr
    subst hpres
    simp [ollamaCallLoop, hl, hc]

/-- The OpenAI dispatch loop processes a batch sequentially: a prefix runs
first, and whatever follows runs from the future state the prefix left —
so a failure anywhere aborts the rest of the batch. -/
theorem openaiCallLoop_append (ts : ToolsState)
    (pre post : List OpenAIToolCall) :
    ∀ fut, openaiCallLoop ts fut (pre ++ post) =
      (match openaiCallLoop ts fut pre with
       | (.ok outs, fut2) =>
         (match openaiCallLoop ts fut2 post with
          | (.ok outs2, fut3) => (.ok (outs ++ outs2), fut3)
          | (.error e, fut3) => (.error e, fut3))
       | (.error e, fut2) => (.error e, fut2)) := by
  induction pre with
  | nil =>
    intro fut
    simp only [List.nil_append, openaiCallLoop]
    cases hpost : openaiCallLoop ts fut post with
    | mk rp fut4 => cases rp <;> simp
  | cons tc rest ih =>
    intro fut
    simp only [List.cons_append, openaiCallLoop]
    cases hl : ts.lookup tc.name with
    | none => simp [hl]
    | some f =>
      simp only [hl]
      cases hc : callFunction f tc.arguments fut with
      | mk r fut2 =>
        cases r with
        | error e => simp
        | ok v =>
          simp only [List.append_eq]
          rw [ih fut2]
          cases hrest : openaiCallLoop ts fut2 rest with
          | mk rr fut3 =>
            cases rr with
            | error e => simp
            | ok outs =>
              simp only
              cases hpost : openaiCallLoop ts fut3 post with
              | mk rp fut4 => cases rp <;> simp

/-- The Ollama dispatch loop processes a batch sequentially, like the
OpenAI one. -/
theorem ollamaCallLoop_append (ts : ToolsState)
    (pre post : List OllamaToolCall) :
    ∀ fut, ollamaCallLoop ts fut (pre ++ post) =
      (match ollamaCallLoop ts fut pre with
       | (.ok outs, fut2) =>
         (match ollamaCallLoop ts fut2 post with
          | (.ok outs2, fut3) => (.ok (outs ++ outs2), fut3)
          | (.error e, fut3) => (.error e, fut3))
       | (.error e, fut2) => (.error e, fut2)) := by
  induction pre with
  | nil =>
    intro fut
    simp only [List.nil_append, ollamaCallLoop]
    cases hpost : ollamaCallLoop ts fut post with
    | mk rp fut4 => cases rp <;> simp
  | cons tc rest ih =>
    intro fut
    simp only [List.cons_append, ollamaCallLoop]
    cases hl : ts.lookup tc.name with
    | none => simp [hl]
    | some f =>
      simp only [hl]
      cases hc : callFunction f tc.arguments fut with
      | mk r fut2 =>
        cases r with
        | error e => simp
        | ok v =>
          simp only [List.append_eq]
          rw [ih fut2]
          cases hrest : ollamaCallLoop ts fut2 rest with
          | mk rr fut3 =>
            cases rr with
            | error e => simp
            | ok outs =>
              simp only
              cases hpost : ollamaCallLoop ts fut3 post with
              | mk rp fut4 => cases rp <;> simp

/-- C2 (amended): Only the Anthropic adapter gives a failing dispatch both
effects. On a registry whose shared future is pending, an Anthropic
dispatch that fails for any reason (unregistered tool name, or any
exception out of the tool invocation — validation error or callable
exception) resolves the future with exactly that failure AND renders a
protocol-shaped error result block. The OpenAI and Ollama adapters have
neither effect for any of those failure kinds: they raise the failure to
their caller, returning no result and leaving the whole registry state
(future included) untouched. -/
theorem c2_error_routing :
    (∀ (ts : ToolsState) (tu : ToolUseBlock),
      ts.future = some .pending →
      ts.lookup tu.name = Option.none →
      anthropicCall ts tu =
        (.ok ⟨tu.id, "An error occurred while calling the tool", true⟩,
         { ts with future := some (.resolvedError
             (.valueError ("Function " ++ tu.name ++ " not found"))) })) ∧
    (∀ (ts : ToolsState) (tu : ToolUseBlock) (f : Function) (e : PyExc),
      ts.future = some .pending →
      ts.lookup tu.name = some f →
      (f.kind = ToolKind.capture → f.returnType = some .noneTy) →
      (callFunction f tu.input ts.future).1 = .error e →
      anthropicCall ts tu =
        (.ok ⟨tu.id, "An error occurred while calling the tool", true⟩,
         { ts with future := some (.resolvedError e) })) ∧
    (∀ (ts : ToolsState) (tc : OpenAIToolCall) (rest : List OpenAIToolCall),
      ts.lookup tc.name = Option.none →
      openaiCall ts (tc :: rest) =
        (.error (.valueError ("Function " ++ tc.name ++ " not found")), ts)) ∧
    (∀ (ts : ToolsState) (tc : OpenAIToolCall) (rest : List OpenAIToolCall)
       (f : Function) (e : PyExc),
      ts.lookup tc.name = some f →
      (f.kind = ToolKind.capture → f.returnType = some .noneTy) →
      (callFunction f tc.arguments ts.future).1 = .error e →
      openaiCall ts (tc :: rest) = (.error e, ts)) ∧
    (∀ (ts : ToolsState) (tc : OllamaToolCall) (rest : List OllamaToolCall),
      ts.lookup tc.name = Option.none →
      ollamaCall ts (tc :: rest) =
        (.error (.valueError ("Function " ++ tc.name ++ " not found")), ts)) ∧
    (∀ (ts : ToolsState) (tc : OllamaToolCall) (rest : List OllamaToolCall)
       (f : Function) (e : PyExc),
      ts.lookup tc.name = some f →
      (f.kind = ToolKind.capture → f.returnType = some .noneTy) →
      (callFunction f tc.arguments ts.future).1 = .error e →
      ollamaCall ts (tc :: rest) = (.error e, ts)) := by
  refine ⟨?_, ?_, ?_, ?_, ?_, ?_⟩
  · intro ts tu hfut hl
    simp [anthropicCall, hl, hfut, setException]
  · intro ts tu f e hfut hl hcap herr
    exact anthropicCall_invoke_error ts tu f e hfut hl hcap herr
  · intro ts tc rest hl
    unfold openaiCall
    rw [openaiCallLoop_lookup_miss ts ts.future tc rest hl]
  · intro ts tc rest f e hl hcap herr
    unfold openaiCall
    rw [openaiCallLoop_invoke_error ts ts.future tc rest f e hl hcap herr]
  · intro ts tc rest hl
    unfold ollamaCall
    rw [ollamaCallLoop_lookup_miss ts ts.future tc rest hl]
  · intro ts tc rest f e hl hcap herr
    unfold ollamaCall
    rw [ollamaCallLoop_invoke_error ts ts.future tc rest f e hl hcap herr]

/-- Witness for C2 (amended), on the demonstration registry: an Anthropic
dispatch of an unregistered name and of a validation-failing call; the
raising OpenAI dispatches of an unregistered name and of a
validation-failing call; and the raising Ollama dispatches of an
unregistered name and of a callable that throws. -/
theorem c2_error_routing_witness :
    anthropicCall demoTs ⟨"1", "missing", []⟩ =
      (.ok ⟨"1", "An error occurred while calling the tool", true⟩,
       { demoTs with future := some (.resolvedError
           (.valueError "Function missing not found")) }) ∧
    anthropicCall demoTs ⟨"2", "inc", [("x", .str "a")]⟩ =
      (.ok ⟨"2", "An error occurred while calling the tool", true⟩,
       { demoTs with future := some (.resolvedError
           (.validationError ["x"])) }) ∧
    openaiCall demoTs [⟨"3", "missing", []⟩] =
      (.error (.valueError "Function missing not found"), demoTs) ∧
    openaiCall demoTs [⟨"4", "inc", [("x", .str "a")]⟩] =
      (.error (.validationError ["x"]), demoTs) ∧
    ollamaCall demoTs [⟨"missing", []⟩] =
      (.error (.valueError "Function missing not found"), demoTs) ∧
    ollamaCall demoTs [⟨"boom", [("x", .int 1), ("y", .int 2)]⟩] =
      (.error (.userError "boom"), demoTs) := by
  refine ⟨c2_error_routing.1 demoTs ⟨"1", "missing", []⟩ rfl rfl,
          c2_error_routing.2.1 demoTs ⟨"2", "inc", [("x", .str "a")]⟩
            incFunction (.validationError ["x"]) rfl rfl
            (by intro h; exact absurd h (by simp [incFunction]))
            (by decide),
          c2_error_routing.2.2.1 demoTs ⟨"3", "missing", []⟩ [] rfl,
          c2_error_routing.2.2.2.1 demoTs ⟨"4", "inc", [("x", .str "a")]⟩ []
            incFunction (.validationError ["x"]) rfl
            (by intro h; exact absurd h (by simp [incFunction]))
            (by decide),
          c2_error_routing.2.2.2.2.1 demoTs ⟨"missing", []⟩ [] rfl,
          c2_error_routing.2.2.2.2.2 demoTs
            ⟨"boom", [("x", .int 1), ("y", .int 2)]⟩ []
            boomFunction (.userError "boom") rfl
            (by intro h; exact absurd h (by simp [boomFunction, addFunction]))
            (by decide)⟩

/-- C2 counterexample: on the result-capturing demonstration registry,
dispatching an unregistered tool name through the OpenAI adapter has
neither claimed effect — the shared future stays pending (it is not
resolved with the failure) and no protocol-shaped error result is
rendered (the exception propagates instead). -/
theorem c2_error_routing_cex :
    demoTs.future = some FutureState.pending ∧
    (openaiCall demoTs [⟨"1", "missing", []⟩]).1
      = .error (.valueError "Function missing not found") ∧
    (openaiCall demoTs [⟨"1", "missing", []⟩]).2.future
      = some FutureState.pending := by
  exact ⟨rfl, by decide, by decide⟩

/-- C3 (amended): Only Anthropic's dispatch entry point never raises for
per-call failures (given a pending future and the capture tool's own
`None` return annotation): it always returns a protocol-shaped result.
The OpenAI and Ollama entry points raise out of the dispatch as soon as
any call of the batch fails — a `ValueError` for an unregistered tool
name, and the invocation's own exception (validation error or callable
exception) otherwise — even after a prefix of successful calls, so the
remaining calls are abandoned and no output list is returned. -/
theorem c3_dispatch_raising :
    (∀ (ts : ToolsState) (tu : ToolUseBlock),
      ts.future = some .pending →
      (∀ f, ts.lookup tu.name = some f →
        (f.kind = ToolKind.capture → f.returnType = some .noneTy)) →
      ∃ r, (anthropicCall ts tu).1 = .ok r) ∧
    (∀ (ts : ToolsState) (pre : List OpenAIToolCall) (tc : OpenAIToolCall)
       (rest : List OpenAIToolCall) (outs : List ToolOutput)
       (fut2 : Option FutureState),
      openaiCallLoop ts ts.future pre = (.ok outs, fut2) →
      ((ts.lookup tc.name = Option.none →
        (openaiCall ts (pre ++ tc :: rest)).1
          = .error (.valueError ("Function " ++ tc.name ++ " not found"))) ∧
       (∀ (f : Function) (e : PyExc),
        ts.lookup tc.name = some f →
        (f.kind = ToolKind.capture → f.returnType = some .noneTy) →
        (callFunction f tc.arguments fut2).1 = .error e →
        (openaiCall ts (pre ++ tc :: rest)).1 = .error e))) ∧
    (∀ (ts : ToolsState) (pre : List OllamaToolCall) (tc : OllamaToolCall)
       (rest : List OllamaToolCall) (outs : List Val)
       (fut2 : Option FutureState),
      ollamaCallLoop ts ts.future pre = (.ok outs, fut2) →
      ((ts.lookup tc.name = Option.none →
        (ollamaCall ts (pre ++ tc :: rest)).1
          = .error (.valueError ("Function " ++ tc.name ++ " not found"))) ∧
       (∀ (f : Function) (e : PyExc),
        ts.lookup tc.name = some f →
        (f.kind = ToolKind.capture → f.returnType = some .noneTy) →
        (callFunction f tc.arguments fut2).1 = .error e →
        (ollamaCall ts (pre ++ tc :: rest)).1 = .error e))) := by
  refine ⟨?_, ?_, ?_⟩
  · intro ts tu hfut hcap
    cases hl : ts.lookup tu.name with
    | none =>
      refine ⟨⟨tu.id, "An error occurred while calling the tool", true⟩, ?_⟩
      simp [anthropicCall, hl, hfut, setException]
    | some f =>
      cases hc : (callFunction f tu.input ts.future).1 with
      | ok v =>
        refine ⟨⟨tu.id, pyStr v, false⟩, ?_⟩
        rw [hfut] at hc
        cases hc2 : callFunction f tu.input (some .pending) with
        | mk r fut2 =>
          rw [hc2] at hc
          simp only at hc
          subst hc
          simp [anthropicCall, hl, hfut, hc2]
      | error e =>
        refine ⟨⟨tu.id, "An error occurred while calling the tool", true⟩, ?_⟩
        have := anthropicCall_invoke_error ts tu f e hfut hl (hcap f hl) hc
        rw [this]
  · intro ts pre tc rest outs fut2 hpre
    constructor
    · intro hl
      unfold openaiCall
      rw [openaiCallLoop_append ts pre (tc :: rest) ts.future, hpre]
      dsimp only
      rw [openaiCallLoop_lookup_miss ts fut2 tc rest hl]
    · intro f e hl hcap herr
      unfold openaiCall
      rw [openaiCallLoop_append ts pre (tc :: rest) ts.future, hpre]
      dsimp only
      rw [openaiCallLoop_invoke_error ts fut2 tc rest f e hl hcap herr]
  · intro ts pre tc rest outs fut2 hpre
    constructor
    · intro hl
      unfold ollamaCall
      rw [ollamaCallLoop_append ts pre (tc :: rest) ts.future, hpre]
      dsimp only
      rw [ollamaCallLoop_lookup_miss ts fut2 tc rest hl]
    · intro f e hl hcap herr
      unfold ollamaCall
      rw [ollamaCallLoop_append ts pre (tc :: rest) ts.future, hpre]
      dsimp only
      rw [ollamaCallLoop_invoke_error ts fut2 tc rest f e hl hcap herr]

/-- Witness for C3 (amended): on the demonstration registry, an Anthropic
dispatch of a failing call returns a result block; an OpenAI batch whose
first call succeeds raises on the second, unregistered, call; and an
Ollama batch whose first call succeeds raises the second call's callable
exception. -/
theorem c3_dispatch_raising_witness :
    (∃ r, (anthropicCall demoTs ⟨"9", "boom", [("x", .int 1), ("y", .int 2)]⟩).1
      = .ok r) ∧
    (openaiCall demoTs
        ([⟨"8", "inc", [("x", .int 1)]⟩] ++ ⟨"9", "nope", []⟩ :: [])).1
      = .error (.valueError "Function nope not found") ∧
    (ollamaCall demoTs
        ([⟨"inc", [("x", .int 41)]⟩] ++
          ⟨"boom", [("x", .int 1), ("y", .int 2)]⟩ :: [])).1
      = .error (.userError "boom") := by
  refine ⟨c3_dispatch_raising.1 demoTs ⟨"9", "boom", [("x", .int 1), ("y", .int 2)]⟩
            rfl ?_,
          (c3_dispatch_raising.2.1 demoTs [⟨"8", "inc", [("x", .int 1)]⟩]
            ⟨"9", "nope", []⟩ [] [⟨"8", "2"⟩] (some .pending)
            (by decide)).1 rfl,
          (c3_dispatch_raising.2.2 demoTs [⟨"inc", [("x", .int 41)]⟩]
            ⟨"boom", [("x", .int 1), ("y", .int 2)]⟩ [] [.int 42]
            (some .pending) (by decide)).2 boomFunction (.userError "boom")
            rfl
            (by intro h; exact absurd h (by simp [boomFunction, addFunction]))
            (by decide)⟩
  intro f hf
  have hb : demoTs.lookup "boom" = some boomFunction := rfl
  have hfb : f = boomFunction :=
    (Option.some_injective _ (hb.symm.trans hf)).symm
  subst hfb
  intro h
  exact absurd h (by simp [boomFunction, addFunction])

/-- C3 counterexample: the Ollama adapter raises a `ValueError` out of its
dispatch entry point for an ordinary per-call failure (an unregistered
tool name) instead of returning a protocol-shaped error payload. -/
theorem c3_dispatch_raising_cex :
    (ollamaCall demoTs [⟨"missing", [("x", .int 1)]⟩]).1
      = .error (.valueError "Function missing not found") := by
  decide

/-- A successful registration loop registers exactly the supplied
functions on top of the accumulator. -/
theorem toolsInitLoop_length (fs : List Function) :
    ∀ (acc : List Function) (warns : List String)
      (tools : List Function) (w : List String),
      toolsInitLoop acc warns fs = .ok (tools, w) →
      tools.length = acc.length + fs.length := by
  induction fs with
  | nil =>
    intro acc warns tools w h
    simp only [toolsInitLoop] at h
    cases h
    simp
  | cons f rest ih =>
    intro acc warns tools w h
    simp only [toolsInitLoop] at h
    split at h
    · exact absurd h (by simp)
    · split at h
      · exact absurd h (by simp)
      · have hlen := ih _ _ _ _ h
        simp only [List.length_append, List.length_cons, List.length_nil]
          at hlen ⊢
        omega

/-- The shape of a successful registry construction with a result type:
the registered functions followed by the capture tool under the reserved
name, and a pending future. -/
theorem toolsInit_some_shape (fns : List Function) (t : PyTy)
    (ts : ToolsState) (warns : List String)
    (h : toolsInit fns (some t) = .ok (ts, warns)) :
    ∃ tools, toolsInitLoop [] [] fns = .ok (tools, warns) ∧
      ts.tools = tools ++ [{ captureFunction t with name := "__return__" }] ∧
      ts.future = some .pending := by
  unfold toolsInit at h
  cases hloop : toolsInitLoop [] [] fns with
  | error e => rw [hloop] at h; cases h
  | ok tw =>
    cases tw with
    | mk tools w =>
      rw [hloop] at h
      simp only at h
      cases h
      exact ⟨tools, rfl, rfl, rfl⟩

/-- C4: A registry built with `result_type=bool` contains exactly one tool
more than the descriptors supplied, the extra one being the capture tool
under the reserved name `__return__`, with a pending shared future.
On the demonstration registry, dispatching a call to the reserved tool
with argument `true` resolves the shared future to `True` (the call
itself returns a normal non-error result block), and a subsequent
dispatch to another tool executes normally and leaves the resolved
future's value unchanged. -/
theorem c4_capture_protocol :
    (∀ (fns : List Function) (t : PyTy) (ts : ToolsState)
       (warns : List String),
      toolsInit fns (some t) = .ok (ts, warns) →
      ts.tools.length = fns.length + 1 ∧
      ts.tools.getLast? = some { captureFunction t with name := "__return__" } ∧
      ts.future = some .pending) ∧
    anthropicCall demoTs ⟨"1", "__return__", [("value", .bool true)]⟩ =
      (.ok ⟨"1", "None", false⟩, demoResolvedTs) ∧
    anthropicCall demoResolvedTs ⟨"2", "inc", [("x", .int 41)]⟩ =
      (.ok ⟨"2", "42", false⟩, demoResolvedTs) := by
  refine ⟨?_, rfl, rfl⟩
  intro fns t ts warns h
  obtain ⟨tools, hloop, htools, hfut⟩ := toolsInit_some_shape fns t ts warns h
  have hlen := toolsInitLoop_length fns [] [] tools warns hloop
  simp only [List.length_nil, Nat.zero_add] at hlen
  refine ⟨?_, ?_, hfut⟩
  · rw [htools]
    simp only [List.length_append, List.length_cons, List.length_nil]
    omega
  · rw [htools]
    exact List.getLast?_concat _

/-- Witness for C4: the demonstration registry has three tools (two
supplied plus the reserved capture tool, which is its last entry) and a
pending future. -/
theorem c4_capture_protocol_witness :
    demoTs.tools.length = 3 ∧
    demoTs.tools.getLast? = some { captureFunction .bool with name := "__return__" } ∧
    demoTs.future = some .pending := by
  have h := c4_capture_protocol.1 [incFunction, boomFunction] .bool demoTs [] rfl
  exact ⟨h.1, h.2.1, h.2.2⟩

/-- A successful registration loop implies the supplied functions avoid
the reserved name, avoid the names already registered, and are pairwise
distinct by name. -/
theorem toolsInitLoop_ok_names (fs : List Function) :
    ∀ (acc : List Function) (warns : List String)
      (tools : List Function) (w : List String),
      toolsInitLoop acc warns fs = .ok (tools, w) →
      (∀ f ∈ fs, f.name ≠ "__return__") ∧
      (∀ f ∈ fs, f.name ∉ acc.map (·.name)) ∧
      (fs.map (·.name)).Nodup := by
  induction fs with
  | nil => intro acc warns tools w h; simp
  | cons f rest ih =>
    intro acc warns tools w h
    simp only [toolsInitLoop] at h
    split at h
    · exact absurd h (by simp)
    · split at h
      · exact absurd h (by simp)
      · rename_i hres hdup
        obtain ⟨ihres, ihnotin, ihnd⟩ := ih _ _ _ _ h
        refine ⟨?_, ?_, ?_⟩
        · intro g hg
          rcases List.mem_cons.mp hg with hg | hg
          · subst hg; exact hres
          · exact ihres g hg
        · intro g hg
          rcases List.mem_cons.mp hg with hg | hg
          · subst hg
            intro hmem
            exact hdup (List.any_eq_true.mpr
              (by
                obtain ⟨a, ha, hname⟩ := List.mem_map.mp hmem
                exact ⟨a, ha, by simp [hname]⟩))
          · intro hmem
            exact ihnotin g hg (by simp [hmem])
        · refine List.nodup_cons.mpr ⟨?_, ihnd⟩
          intro hmem
          obtain ⟨a, ha, hname⟩ := List.mem_map.mp hmem
          exact ihnotin a ha (by simp [hname])

/-- Completeness of registration: name-distinct functions avoiding both
the reserved name and the already-registered names register successfully,
appending exactly the per-function no-description warnings. -/
theorem toolsInitLoop_complete (fs : List Function) :
    ∀ (acc : List Function) (warns : List String),
      (∀ f ∈ fs, f.name ≠ "__return__") →
      (∀ f ∈ fs, f.name ∉ acc.map (·.name)) →
      (fs.map (·.name)).Nodup →
      toolsInitLoop acc warns fs = .ok (acc ++ fs, warns ++ warningsOf fs) := by
  induction fs with
  | nil => intro acc warns _ _ _; simp [toolsInitLoop, warningsOf]
  | cons f rest ih =>
    intro acc warns hres hnotin hnd
    have hfres : f.name ≠ "__return__" := hres f (by simp)
    have hfnotin : (acc.any (·.name = f.name)) = false := by
      rw [List.any_eq_false]
      intro a ha
      simp only [decide_eq_true_eq]
      intro heq
      exact hnotin f (by simp) (List.mem_map.mpr ⟨a, ha, heq⟩)
    rw [List.map_cons] at hnd
    have hnd2 := List.nodup_cons.mp hnd
    have hrec := ih (acc ++ [f])
      (if descFalsy f.description then
        warns ++ ["Function " ++ f.name ++ " has no description"]
      else warns)
      (fun g hg => hres g (by simp [hg]))
      (fun g hg => by
        simp only [List.map_append, List.map_cons, List.map_nil]
        intro hmem
        rcases List.mem_append.mp hmem with hmem | hmem
        · exact hnotin g (by simp [hg]) hmem
        · simp only [List.mem_singleton] at hmem
          exact hnd2.1 (hmem ▸ List.mem_map.mpr ⟨g, hg, rfl⟩))
      hnd2.2
    have hstep : toolsInitLoop acc warns (f :: rest) =
        toolsInitLoop (acc ++ [f])
          (if descFalsy f.description then
            warns ++ ["Function " ++ f.name ++ " has no description"]
          else warns) rest := by
      simp [toolsInitLoop, hfres, hfnotin]
    rw [hstep, hrec]
    have hw : warningsOf (f :: rest) =
        (if descFalsy f.description then
          ["Function " ++ f.name ++ " has no description"]
        else []) ++ warningsOf rest := by
      simp only [warningsOf, List.filterMap_cons]
      split <;> simp_all [warningsOf]
    rw [hw]
    by_cases hd : descFalsy f.description <;> simp [hd]

/-- Registration only fails with the reserved-name error (and then a
supplied function bears the reserved name) or a duplicate-name error. -/
theorem toolsInitLoop_error_classify (fs : List Function) :
    ∀ (acc : List Function) (warns : List String) (e : PyExc),
      toolsInitLoop acc warns fs = .error e →
      (e = .valueError "Function name __return__ is reserved" ∧
        ∃ f ∈ fs, f.name = "__return__") ∨
      (∃ n, e = .valueError ("Duplicate function name: " ++ n)) := by
  induction fs with
  | nil => intro acc warns e h; exact absurd h (by simp [toolsInitLoop])
  | cons f rest ih =>
    intro acc warns e h
    simp only [toolsInitLoop] at h
    split at h
    · rename_i hres
      cases h
      exact Or.inl ⟨rfl, f, by simp, hres⟩
    · split at h
      · cases h
        exact Or.inr ⟨f.name, rfl⟩
      · rcases ih _ _ _ h with ⟨he, g, hg, hname⟩ | hdup
        · exact Or.inl ⟨he, g, by simp [hg], hname⟩
        · exact Or.inr hdup

/-- `toolsInit` fails exactly when its registration loop does. -/
theorem toolsInit_error_iff (fns : List Function) (rt : Option PyTy)
    (e : PyExc) :
    toolsInit fns rt = .error e ↔ toolsInitLoop [] [] fns = .error e := by
  unfold toolsInit
  cases hloop : toolsInitLoop [] [] fns with
  | error e2 => simp
  | ok tw => cases tw; cases rt <;> simp

/-- C9: Registry construction fails with the duplicate-name `ValueError`
when two supplied descriptors share a name (and none bears the reserved
name), fails with the reserved-name `ValueError` when a supplied
descriptor is named `__return__` (names otherwise distinct), succeeds
otherwise — so a successful construction certifies name uniqueness and
reservation — and a missing description is non-fatal: construction still
succeeds and merely records a warning naming the function. -/
theorem c9_registry_construction :
    (∀ (fns : List Function) (rt : Option PyTy) (ts : ToolsState)
       (warns : List String),
      toolsInit fns rt = .ok (ts, warns) →
      (fns.map (·.name)).Nodup ∧ ∀ f ∈ fns, f.name ≠ "__return__") ∧
    (∀ (fns : List Function) (rt : Option PyTy),
      (∀ f ∈ fns, f.name ≠ "__return__") →
      ¬ (fns.map (·.name)).Nodup →
      ∃ n, toolsInit fns rt = .error
        (.valueError ("Duplicate function name: " ++ n))) ∧
    (∀ (fns : List Function) (rt : Option PyTy),
      (fns.map (·.name)).Nodup →
      (∃ f ∈ fns, f.name = "__return__") →
      ∃ e, toolsInit fns rt = .error e) ∧
    (∀ (fns : List Function) (rt : Option PyTy),
      (∀ f ∈ fns, f.name ≠ "__return__") →
      (fns.map (·.name)).Nodup →
      ∃ ts warns, toolsInit fns rt = .ok (ts, warns) ∧
        ∀ f ∈ fns, descFalsy f.description = true →
          ("Function " ++ f.name ++ " has no description") ∈ warns) := by
  refine ⟨?_, ?_, ?_, ?_⟩
  · intro fns rt ts warns h
    unfold toolsInit at h
    cases hloop : toolsInitLoop [] [] fns with
    | error e => rw [hloop] at h; cases h
    | ok tw =>
      cases tw with
      | mk tools w =>
        obtain ⟨hres, _, hnd⟩ := toolsInitLoop_ok_names fns [] [] tools w hloop
        exact ⟨hnd, hres⟩
  · intro fns rt hres hnd
    cases hinit : toolsInit fns rt with
    | ok tw =>
      cases tw with
      | mk ts warns =>
        unfold toolsInit at hinit
        cases hloop : toolsInitLoop [] [] fns with
        | error e => rw [hloop] at hinit; cases hinit
        | ok tw2 =>
          obtain ⟨_, _, hnd2⟩ :=
            toolsInitLoop_ok_names fns [] [] tw2.1 tw2.2 (by rw [hloop])
          exact absurd hnd2 hnd
    | error e =>
      rcases toolsInitLoop_error_classify fns [] [] e
          ((toolsInit_error_iff fns rt e).mp hinit) with ⟨_, g, hg, hname⟩ | ⟨n, hn⟩
      · exact absurd hname (hres g hg)
      · exact ⟨n, by rw [hn]⟩
  · intro fns rt hnd ⟨f, hf, hname⟩
    cases hinit : toolsInit fns rt with
    | ok tw =>
      cases tw with
      | mk ts warns =>
        unfold toolsInit at hinit
        cases hloop : toolsInitLoop [] [] fns with
        | error e => rw [hloop] at hinit; cases hinit
        | ok tw2 =>
          obtain ⟨hres, _, _⟩ :=
            toolsInitLoop_ok_names fns [] [] tw2.1 tw2.2 (by rw [hloop])
          exact absurd hname (hres f hf)
    | error e => exact ⟨e, rfl⟩
  · intro fns rt hres hnd
    have hloop := toolsInitLoop_complete fns [] [] hres (by simp) hnd
    simp only [List.nil_append] at hloop
    have hmem : ∀ f ∈ fns, descFalsy f.description = true →
        ("Function " ++ f.name ++ " has no description") ∈ warningsOf fns := by
      intro f hf hd
      exact List.mem_filterMap.mpr ⟨f, hf, by simp [hd]⟩
    unfold toolsInit
    rw [hloop]
    cases rt with
    | none => exact ⟨_, _, rfl, hmem⟩
    | some t => exact ⟨_, _, rfl, hmem⟩

/-- Witness for C9: a concrete duplicate-name failure, a concrete
reserved-name failure, a concrete success certifying its name hygiene,
and a concrete descriptionless function that still registers with a
warning naming it. -/
theorem c9_registry_construction_witness :
    ((List.map (·.name) [incFunction]).Nodup ∧
      ∀ f ∈ [incFunction], f.name ≠ "__return__") ∧
    (∃ n, toolsInit [incFunction, { boomFunction with name := "inc" }]
      Option.none = .error (.valueError ("Duplicate function name: " ++ n))) ∧
    (∃ e, toolsInit [{ incFunction with name := "__return__" }] Option.none
      = .error e) ∧
    (∃ ts warns, toolsInit [noDescFunction] Option.none = .ok (ts, warns) ∧
      ∀ f ∈ [noDescFunction], descFalsy f.description = true →
        ("Function " ++ f.name ++ " has no description") ∈ warns) := by
  refine ⟨c9_registry_construction.1 [incFunction] Option.none
            ⟨[incFunction], Option.none⟩ [] rfl,
          c9_registry_construction.2.1 _ _ ?_ ?_,
          c9_registry_construction.2.2.1 _ _ ?_ ?_,
          c9_registry_construction.2.2.2 _ _ ?_ ?_⟩
  · intro f hf
    rcases List.mem_cons.mp hf with h | h
    · subst h; decide
    · simp only [List.mem_singleton] at h; subst h; decide
  · decide
  · decide
  · exact ⟨{ incFunction with name := "__return__" }, by simp, rfl⟩
  · intro f hf
    simp only [List.mem_singleton] at hf
    subst hf; decide
  · decide

/-- The derived fields are positionally the per-parameter derivation at
the parameter's order index. -/
theorem deriveFieldsFrom_fst_getElem (doc : List DocParam) (ps : List Parameter) :
    ∀ (o i : Nat),
      ((deriveFieldsFrom doc o ps).1)[i]? =
        (ps[i]?).map (fun p => (deriveField doc (o + i) p).1) := by
  induction ps with
  | nil => intro o i; simp [deriveFieldsFrom]
  | cons p rest ih =>
    intro o i
    cases i with
    | zero => simp [deriveFieldsFrom]
    | succ n =>
      simp only [deriveFieldsFrom, List.getElem?_cons_succ]
      rw [ih (o + 1) n]
      have : o + (n + 1) = o + 1 + n := by omega
      rw [this]

/-- The post-derivation parameters are positionally the per-parameter
post-states. -/
theorem deriveFieldsFrom_snd_getElem (doc : List DocParam) (ps : List Parameter) :
    ∀ (o i : Nat),
      ((deriveFieldsFrom doc o ps).2)[i]? =
        (ps[i]?).map (fun p => (deriveField doc (o + i) p).2) := by
  induction ps with
  | nil => intro o i; simp [deriveFieldsFrom]
  | cons p rest ih =>
    intro o i
    cases i with
    | zero => simp [deriveFieldsFrom]
    | succ n =>
      simp only [deriveFieldsFrom, List.getElem?_cons_succ]
      rw [ih (o + 1) n]
      have : o + (n + 1) = o + 1 + n := by omega
      rw [this]

/-- One derived field per parameter. -/
theorem deriveFieldsFrom_fst_length (doc : List DocParam) (ps : List Parameter) :
    ∀ o : Nat, ((deriveFieldsFrom doc o ps).1).length = ps.length := by
  induction ps with
  | nil => intro o; rfl
  | cons p rest ih => intro o; simp [deriveFieldsFrom, ih (o + 1)]

/-- The derived field keeps the parameter's name. -/
theorem deriveField_name (doc : List DocParam) (o : Nat) (p : Parameter) :
    (deriveField doc o p).1.name = p.name := by
  unfold deriveField
  cases p.default <;> dsimp only

/-- The derived field keeps the parameter's annotation. -/
theorem deriveField_annot (doc : List DocParam) (o : Nat) (p : Parameter) :
    (deriveField doc o p).1.annot = p.annot := by
  unfold deriveField
  cases p.default <;> dsimp only

/-- The derived field's default: none for a parameter without one, the
parameter's plain default, or the field descriptor's own default. -/
theorem deriveField_default (doc : List DocParam) (o : Nat) (p : Parameter) :
    (deriveField doc o p).1.info.default =
      (match p.default with
       | .empty => Option.none
       | .value v => some v
       | .field fi => fi.default) := by
  unfold deriveField
  cases p.default <;> dsimp only <;> split <;> (try split) <;> rfl

/-- The derived field's `json_schema_extra` is exactly the order marker,
whatever the parameter's default carried. -/
theorem deriveField_extra (doc : List DocParam) (o : Nat) (p : Parameter) :
    (deriveField doc o p).1.info.json_schema_extra =
      some [("x-order", .int o)] := by
  unfold deriveField
  cases p.default <;> dsimp only <;> split <;> (try split) <;> rfl

/-- A field descriptor's own (non-falsy) description survives derivation. -/
theorem deriveField_desc_keep (doc : List DocParam) (o : Nat) (p : Parameter)
    (fi : FieldInfo) (hp : p.default = .field fi)
    (hd : descFalsy fi.description = false) :
    (deriveField doc o p).1.info.description = fi.description := by
  unfold deriveField
  rw [hp]
  dsimp only
  rw [if_neg (by simp [hd])]

/-- With a falsy field-descriptor description, the docstring's entry for
the parameter backfills it (when the docstring has one). -/
theorem deriveField_desc_backfill (doc : List DocParam) (o : Nat)
    (p : Parameter) (fi : FieldInfo) (hp : p.default = .field fi)
    (hd : descFalsy fi.description = true) :
    (deriveField doc o p).1.info.description =
      (match doc.find? (·.arg_name = p.name) with
       | some d => d.description
       | Option.none => fi.description) := by
  unfold deriveField
  rw [hp]
  dsimp only
  rw [if_pos (by simp [hd])]
  cases doc.find? (·.arg_name = p.name) <;> rfl

/-- A parameter without a field-descriptor default gets its description
from the docstring alone. -/
theorem deriveField_desc_plain (doc : List DocParam) (o : Nat)
    (p : Parameter) (hp : p.default = .empty ∨ ∃ v, p.default = .value v) :
    (deriveField doc o p).1.info.description =
      (match doc.find? (·.arg_name = p.name) with
       | some d => d.description
       | Option.none => Option.none) := by
  unfold deriveField
  rcases hp with hp | ⟨v, hp⟩ <;>
    (rw [hp]; dsimp only [descFalsy];
     cases doc.find? (·.arg_name = p.name) <;> rfl)

/-- A field-descriptor default is mutated in place: the parameter's
post-derivation default is the derived field's info object. -/
theorem deriveField_post_field (doc : List DocParam) (o : Nat)
    (p : Parameter) (fi : FieldInfo) (hp : p.default = .field fi) :
    (deriveField doc o p).2 =
      { p with default := .field (deriveField doc o p).1.info } := by
  unfold deriveField
  rw [hp]

/-- A parameter without a field-descriptor default is left untouched by
derivation. -/
theorem deriveField_post_plain (doc : List DocParam) (o : Nat)
    (p : Parameter) (hp : ∀ fi, p.default ≠ .field fi) :
    (deriveField doc o p).2 = p := by
  unfold deriveField
  cases hd : p.default with
  | empty => dsimp only
  | value v => dsimp only
  | field fi => exact absurd hd (hp fi)

/-- C6 (amended): The derived `Input` type has exactly one field per
parameter, in signature order, keeping name and annotation; a field is
required iff its parameter has no default **or** its default is a field
descriptor carrying no default value; plain defaults and field-descriptor
defaults are preserved; every field carries exactly the order marker
`x-order = i`; a field descriptor's own description is kept, and the
documentation-derived description is used only when the descriptor's
description is absent/empty (parameters without a field descriptor take
the documentation description directly). -/
theorem c6_input_schema_fidelity :
    (∀ (doc : List DocParam) (params : List Parameter),
      (deriveInputFields doc params).1.length = params.length) ∧
    (∀ (doc : List DocParam) (params : List Parameter) (i : Nat)
       (p : Parameter),
      params[i]? = some p →
      ∃ fld, (deriveInputFields doc params).1[i]? = some fld ∧
        fld.name = p.name ∧
        fld.annot = p.annot ∧
        (fld.required = true ↔
          p.default = .empty ∨
            ∃ fi, p.default = .field fi ∧ fi.default = Option.none) ∧
        (∀ v, p.default = .value v → fld.info.default = some v) ∧
        (∀ fi, p.default = .field fi → fld.info.default = fi.default) ∧
        fld.info.json_schema_extra = some [("x-order", .int i)] ∧
        (∀ fi, p.default = .field fi → descFalsy fi.description = false →
          fld.info.description = fi.description) ∧
        (∀ fi, p.default = .field fi → descFalsy fi.description = true →
          fld.info.description =
            (match doc.find? (·.arg_name = p.name) with
             | some d => d.description
             | Option.none => fi.description)) ∧
        (p.default = .empty ∨ (∃ v, p.default = .value v) →
          fld.info.description =
            (match doc.find? (·.arg_name = p.name) with
             | some d => d.description
             | Option.none => Option.none))) := by
  refine ⟨fun doc params => deriveFieldsFrom_fst_length doc params 0, ?_⟩
  intro doc params i p hp
  refine ⟨(deriveField doc i p).1, ?_, deriveField_name doc i p,
    deriveField_annot doc i p, ?_, ?_, ?_, deriveField_extra doc i p,
    fun fi hfi hd => deriveField_desc_keep doc i p fi hfi hd,
    fun fi hfi hd => deriveField_desc_backfill doc i p fi hfi hd,
    fun h => deriveField_desc_plain doc i p h⟩
  · rw [show (deriveInputFields doc params).1 = (deriveFieldsFrom doc 0 params).1
        from rfl,
      deriveFieldsFrom_fst_getElem doc params 0 i, hp]
    simp
  · rw [DerivedField.required, deriveField_default doc i p]
    cases hd : p.default with
    | empty => simp
    | value v => simp
    | field fi =>
      simp only [Option.isNone_iff_eq_none]
      constructor
      · intro h; exact Or.inr ⟨fi, rfl, h⟩
      · rintro (h | ⟨fi2, hfi2, h⟩)
        · cases h
        · cases hfi2; exact h
  · intro v hv
    rw [deriveField_default doc i p, hv]
  · intro fi hfi
    rw [deriveField_default doc i p, hfi]

/-- C6 counterexample: for `x: int = Field(description="supplied
description")` — a parameter *with* a default, namely a field descriptor
carrying no default value — the derived field is nevertheless required,
so "required iff the parameter has no default" fails. -/
theorem c6_input_schema_fidelity_cex :
    ((deriveInputFields [] [cexParam]).1.map (·.required)) = [true] ∧
    cexParam.default ≠ ParamDefault.empty := by
  exact ⟨by decide, by decide⟩

/-- Witness for C6: the per-index clause evaluated on the concrete
parameter list of `add(x: int, y: int)` at index 1. -/
theorem c6_input_schema_fidelity_witness :
    ∃ fld, (deriveInputFields [] addParams).1[1]? = some fld ∧
      fld.name = yParam.name ∧
      fld.annot = yParam.annot ∧
      (fld.required = true ↔
        yParam.default = .empty ∨
          ∃ fi, yParam.default = .field fi ∧ fi.default = Option.none) ∧
      (∀ v, yParam.default = .value v → fld.info.default = some v) ∧
      (∀ fi, yParam.default = .field fi → fld.info.default = fi.default) ∧
      fld.info.json_schema_extra = some [("x-order", .int 1)] ∧
      (∀ fi, yParam.default = .field fi → descFalsy fi.description = false →
        fld.info.description = fi.description) ∧
      (∀ fi, yParam.default = .field fi → descFalsy fi.description = true →
        fld.info.description =
          (match ([] : List DocParam).find? (·.arg_name = yParam.name) with
           | some d => d.description
           | Option.none => fi.description)) ∧
      (yParam.default = .empty ∨ (∃ v, yParam.default = .value v) →
        fld.info.description =
          (match ([] : List DocParam).find? (·.arg_name = yParam.name) with
           | some d => d.description
           | Option.none => Option.none)) := by
  exact c6_input_schema_fidelity.2 [] addParams 1 yParam rfl

/-- C10: Schema derivation overwrites, for every parameter whose default
is a field descriptor, that descriptor's `json_schema_extra` with exactly
the order marker (any developer-supplied extra is discarded), and it does
so in place: the callable's own parameter default afterwards *is* the
mutated descriptor. Parameters without a field-descriptor default are
untouched. -/
theorem c10_field_info_mutation (doc : List DocParam)
    (params : List Parameter) (i : Nat) (p : Parameter)
    (hp : params[i]? = some p) :
    ∃ fld post,
      (deriveInputFields doc params).1[i]? = some fld ∧
      (deriveInputFields doc params).2[i]? = some post ∧
      (∀ fi, p.default = .field fi →
        fld.info.json_schema_extra = some [("x-order", .int i)] ∧
        post = { p with default := .field fld.info }) ∧
      ((∀ fi, p.default ≠ .field fi) → post = p) := by
  refine ⟨(deriveField doc i p).1, (deriveField doc i p).2, ?_, ?_, ?_, ?_⟩
  · rw [show (deriveInputFields doc params).1 = (deriveFieldsFrom doc 0 params).1
        from rfl,
      deriveFieldsFrom_fst_getElem doc params 0 i, hp]
    simp
  · rw [show (deriveInputFields doc params).2 = (deriveFieldsFrom doc 0 params).2
        from rfl,
      deriveFieldsFrom_snd_getElem doc params 0 i, hp]
    simp
  · intro fi hfi
    exact ⟨deriveField_extra doc i p, deriveField_post_field doc i p fi hfi⟩
  · intro h
    exact deriveField_post_plain doc i p h

/-- Witness for C10: the mutation clause evaluated on a parameter whose
field descriptor carries a developer-supplied `json_schema_extra`. -/
theorem c10_field_info_mutation_witness :
    ∃ fld post,
      (deriveInputFields [] [cexParam]).1[0]? = some fld ∧
      (deriveInputFields [] [cexParam]).2[0]? = some post ∧
      (∀ fi, cexParam.default = .field fi →
        fld.info.json_schema_extra = some [("x-order", .int 0)] ∧
        post = { cexParam with default := .field fld.info }) ∧
      ((∀ fi, cexParam.default ≠ .field fi) → post = cexParam) :=
  c10_field_info_mutation [] [cexParam] 0 cexParam rfl

/-- C7 (amended): A declared return type that is a structured record
(`BaseModel` subclass) is used verbatim as the Output type, even when it
sits under `Annotated` (the type-hint extraction strips the wrapper).
Otherwise the Output type is the single-field `root` wrapper whose
description is: for a non-`Annotated` return annotation (including a
plain `int` or no annotation at all), the documentation's return
description or none; for an `Annotated` return annotation, the first
field-metadata entry's description or none — the documentation's return
description is *not* consulted in the `Annotated` case. -/
theorem c7_output_wrapping :
    (∀ (doc : Docstring) (n : String),
      deriveOutput (.plain (.model n)) doc = .verbatim n) ∧
    (∀ (doc : Docstring) (n : String) (metas : List AnnMeta),
      deriveOutput (.annotated (.model n) metas) doc = .verbatim n) ∧
    (∀ (doc : Docstring) (t : PyTy), isModelType t = false →
      deriveOutput (.plain t) doc = .wrapped (some t) doc.returns) ∧
    (∀ (doc : Docstring),
      deriveOutput .missing doc = .wrapped Option.none doc.returns) ∧
    (∀ (doc : Docstring) (base : PyTy) (metas : List AnnMeta),
      isModelType base = false →
      deriveOutput (.annotated base metas) doc
        = .wrapped (some base) (firstFieldMetaDescription metas)) := by
  refine ⟨fun doc n => rfl, fun doc n metas => rfl, ?_, fun doc => rfl, ?_⟩
  · intro doc t h
    cases t <;> first
      | rfl
      | (rename_i n; exact absurd h (by simp [isModelType]))
  · intro doc base metas h
    cases base <;> first
      | rfl
      | (rename_i n; exact absurd h (by simp [isModelType]))

/-- Witness for C7: a callable returning plain `int` with a documented
return takes the docstring description; an `Annotated` return with field
metadata takes the metadata description. -/
theorem c7_output_wrapping_witness :
    deriveOutput (.plain .int) ⟨some "f", [], some "the result"⟩
      = .wrapped (some .int) (some "the result") ∧
    deriveOutput
        (.annotated .int [.fieldMeta ⟨Option.none, some "meta desc", Option.none⟩])
        ⟨some "f", [], some "the result"⟩
      = .wrapped (some .int) (some "meta desc") :=
  ⟨c7_output_wrapping.2.2.1 ⟨some "f", [], some "the result"⟩ .int rfl,
   c7_output_wrapping.2.2.2.2 ⟨some "f", [], some "the result"⟩ .int
     [.fieldMeta ⟨Option.none, some "meta desc", Option.none⟩] rfl⟩

/-- C7 counterexample: for an `Annotated[int, ...]` return whose metadata
carries no field descriptor, together with a documented return
description, the code produces no description at all — the spec's
precedence (explicit metadata, then documentation, then none) would
produce the documentation description. -/
theorem c7_output_wrapping_cex :
    deriveOutput (.annotated .int [.other "units"])
        ⟨some "f", [], some "the result"⟩
      = .wrapped (some .int) Option.none ∧
    specReturnDescription (.annotated .int [.other "units"])
        ⟨some "f", [], some "the result"⟩
      = some "the result" ∧
    deriveOutput (.annotated .int [.other "units"])
        ⟨some "f", [], some "the result"⟩
      ≠ .wrapped (some .int)
          (specReturnDescription (.annotated .int [.other "units"])
            ⟨some "f", [], some "the result"⟩) := by
  exact ⟨rfl, rfl, by decide⟩

/-- `_process_parameters` strips the `title` and `x-order` keys at every
nesting level: no object anywhere in its output carries either key. -/
theorem processParameters_noBanned (j : JVal) :
    noBanned (processParameters j) = true := by
  refine processParameters.induct
    (fun j => noBanned (processParameters j) = true)
    (fun xs => noBannedArr (processArrList xs) = true)
    (fun kvs => noBannedObj (processObjList kvs) = true)
    ?_ ?_ ?_ ?_ ?_ ?_ ?_ ?_ j
  · intro kvs h
    simpa [processParameters, noBanned] using h
  · intro xs h
    simpa [processParameters, noBanned] using h
  · intro v hobj harr
    cases v with
    | obj kvs => exact absurd rfl (hobj kvs)
    | arr xs => exact absurd rfl (harr xs)
    | str s => rfl
    | num n => rfl
    | bool b => rfl
    | null => rfl
  · rfl
  · intro v rest h1 h2
    simp [processArrList, noBannedArr, h1, h2]
  · rfl
  · intro k v rest hk h3
    simp [processObjList, hk, h3]
  · intro k v rest hk h1 h3
    simp [processObjList, hk, noBannedObj, h1, h3]

/-- Looking up a non-stripped key after `_process_parameters` finds the
processed original value. -/
theorem processObjList_lookup (k : String)
    (hk : ¬(k = "title" ∨ k = "x-order")) (kvs : List (String × JVal)) :
    objLookup (processObjList kvs) k =
      (objLookup kvs k).map processParameters := by
  induction kvs with
  | nil => rfl
  | cons kv rest ih =>
    cases kv with
    | mk k2 v =>
      by_cases hb : k2 = "title" ∨ k2 = "x-order"
      · have hne : (k == k2) = false := by
          rcases hb with hb | hb <;>
            (subst hb; simp; intro he; exact hk (by simp [he]))
        simp only [processObjList, if_pos hb, objLookup, List.lookup, hne]
        exact ih
      · simp only [processObjList, if_neg hb, objLookup, List.lookup]
        by_cases he : (k == k2) = true
        · simp [he]
        · simp only [Bool.not_eq_true] at he
          simp only [he]
          exact ih

/-- Python dict assignment of a fresh key makes that key look up to the
assigned value. -/
theorem objLookup_objAssign_new (kvs : List (String × JVal)) (k : String)
    (v : JVal) (h : kvs.any (·.1 = k) = false) :
    objLookup (objAssign kvs k v) k = some v := by
  unfold objAssign
  rw [h]
  simp only [Bool.false_eq_true, if_false]
  induction kvs with
  | nil => simp [objLookup, List.lookup]
  | cons kv rest ih =>
    cases kv with
    | mk k2 v2 =>
      simp only [List.any_cons, Bool.or_eq_false_iff, decide_eq_false_iff_not]
        at h
      have hne : (k == k2) = false := by
        simp
        intro he
        exact h.1 he.symm
      simp only [List.cons_append, objLookup, List.lookup, hne]
      exact ih h.2

/-- The top level of a pydantic model schema has no `additionalProperties`
entry of its own. -/
theorem modelJsonSchemaEntries_no_ap (title : String)
    (fields : List DerivedField) :
    ((modelJsonSchemaEntries title fields).any
      (·.1 = "additionalProperties")) = false := by
  by_cases h : ((fields.filter (·.required)).map (JVal.str ·.name)).isEmpty <;>
    simp [modelJsonSchemaEntries, h]

/-- C8 (amended): Every adapter renders one tool-declaration entry per
registered tool (the synthetic capture tool included). The Anthropic and
Ollama entries carry the tool's name, description and input schema; the
OpenAI entry carries the name, the `strict` flag and the schema — but no
description. For the OpenAI protocol the `title` and `x-order` keys are
stripped at every nesting level of the schema and `additionalProperties`
is forced to `false` at its top level. The Anthropic adapter fails at
construction iff some function name does not match
`^[a-zA-Z0-9_-]{1,64}$` (and otherwise defers to the base construction). -/
theorem c8_tool_rendering :
    (∀ ts : ToolsState,
      (anthropicToolList ts).length = ts.tools.length ∧
      (openaiToolList ts).length = ts.tools.length ∧
      (ollamaToolList ts).length = ts.tools.length) ∧
    (∀ (ts : ToolsState) (i : Nat) (f : Function), ts.tools[i]? = some f →
      (anthropicToolList ts)[i]? = some (.obj
        [("name", .str f.name),
         ("description", .str (f.description.getD "")),
         ("input_schema", modelJsonSchema "Input" f.inputFields)]) ∧
      (ollamaToolList ts)[i]? = some (.obj
        [("type", .str "function"),
         ("function", .obj
           [("name", .str f.name),
            ("description", .str (f.description.getD "")),
            ("parameters", modelJsonSchema "Input" f.inputFields)])]) ∧
      (openaiToolList ts)[i]? = some (.obj
        [("type", .str "function"),
         ("function", .obj
           [("name", .str f.name),
            ("strict", .bool true),
            ("parameters", openaiParameters f.inputFields)])])) ∧
    (∀ fields : List DerivedField,
      noBanned (openaiParameters fields) = true) ∧
    (∀ fields : List DerivedField,
      jObjLookup (some (openaiParameters fields)) "additionalProperties"
        = some (.bool false)) ∧
    (∀ (fns : List Function) (rt : Option PyTy),
      ((∃ f ∈ fns, anthropicNameOk f.name = false) →
        ∃ msg, anthropicInit fns rt = .error (.valueError msg)) ∧
      ((∀ f ∈ fns, anthropicNameOk f.name = true) →
        anthropicInit fns rt = toolsInit fns rt)) := by
  refine ⟨?_, ?_, ?_, ?_, ?_⟩
  · intro ts
    exact ⟨List.length_map _ _, List.length_map _ _, List.length_map _ _⟩
  · intro ts i f h
    refine ⟨?_, ?_, ?_⟩ <;>
      simp [anthropicToolList, ollamaToolList, openaiToolList,
        List.getElem?_map, h]
  · intro fields
    exact processParameters_noBanned _
  · intro fields
    show objLookup (processObjList
      (objAssign (modelJsonSchemaEntries "Input" fields)
        "additionalProperties" (.bool false))) "additionalProperties"
      = some (.bool false)
    rw [processObjList_lookup "additionalProperties" (by simp),
      objLookup_objAssign_new _ _ _ (modelJsonSchemaEntries_no_ap _ _)]
    rfl
  · intro fns rt
    constructor
    · rintro ⟨f, hf, hbad⟩
      unfold anthropicInit
      cases hfind : fns.find? (fun g => ! anthropicNameOk g.name) with
      | none =>
        rw [List.find?_eq_none] at hfind
        have := hfind f hf
        simp [hbad] at this
      | some g => exact ⟨_, rfl⟩
    · intro hall
      unfold anthropicInit
      cases hfind : fns.find? (fun g => ! anthropicNameOk g.name) with
      | none => rfl
      | some g =>
        have hg := List.find?_some hfind
        have hmem := List.mem_of_find?_eq_some hfind
        simp only [Bool.not_eq_true'] at hg
        rw [hall g hmem] at hg
        cases hg

/-- Witness for C8 (amended): the rendered entries of the demonstration
registry at index 0, the stripped OpenAI parameters of `inc`, a failing
Anthropic construction for an ill-named function, and a succeeding one. -/
theorem c8_tool_rendering_witness :
    ((anthropicToolList demoTs)[0]? = some (.obj
      [("name", .str incFunction.name),
       ("description", .str (incFunction.description.getD "")),
       ("input_schema", modelJsonSchema "Input" incFunction.inputFields)])) ∧
    noBanned (openaiParameters incFunction.inputFields) = true ∧
    jObjLookup (some (openaiParameters incFunction.inputFields))
      "additionalProperties" = some (.bool false) ∧
    (∃ msg, anthropicInit [{ incFunction with name := "bad name!" }]
      Option.none = .error (.valueError msg)) ∧
    anthropicInit [incFunction] Option.none
      = toolsInit [incFunction] Option.none := by
  refine ⟨(c8_tool_rendering.2.1 demoTs 0 incFunction rfl).1,
          c8_tool_rendering.2.2.1 incFunction.inputFields,
          c8_tool_rendering.2.2.2.1 incFunction.inputFields,
          (c8_tool_rendering.2.2.2.2 _ _).1
            ⟨{ incFunction with name := "bad name!" }, by simp, by decide⟩,
          (c8_tool_rendering.2.2.2.2 _ _).2 ?_⟩
  intro f hf
  simp only [List.mem_singleton] at hf
  subst hf
  decide

/-- C8 counterexample: the OpenAI tool-declaration entry for `inc` carries
no description, although the descriptor has one — the claim that every
adapter's entries carry the descriptor's description fails. -/
theorem c8_tool_rendering_cex :
    jObjLookup (jObjLookup (openaiToolList demoTs)[0]? "function")
      "description" = Option.none ∧
    incFunction.description = some "Increment a number." := by
  exact ⟨rfl, rfl⟩

end Hype
